import Mathlib

/-!
Verification of the AWS SSO auditor library (cpk-lib-python-aws).

Shallow embedding of the Python source:
- Python dicts/JSON-like values are modelled by `PyVal` (a value tree);
  dict entries are association lists with unique keys maintained by the code.
- The cloud provider (boto3 clients) is modelled by an environment record
  `AWSEnv` of pure functions returning `Except String` results; an
  exception raised by a provider call is the `.error` case. Paginated
  enumerations return the list of pages (each page already projected to the
  relevant field, e.g. `page["PermissionSets"]`).
- Each auditor method returns its value together with the list of provider
  calls it performed (`CallEvent` trace), so that claims about when data is
  fetched can be stated.
-/

/-- Python dict keys occurring in this code base: strings and ints
(`safe_get_nested` is called with the int key `0`). -/
inductive PyKey where
  | s (v : String)
  | i (v : Int)
deriving DecidableEq, Repr

/-- JSON-like Python values as they flow through the auditor. -/
inductive PyVal where
  | str (s : String)
  | int (n : Int)
  | bool (b : Bool)
  | dict (entries : List (PyKey × PyVal))
  | list (items : List PyVal)
  | none
deriving Repr

/-- Entry list of a Python dict. -/
abbrev PyDict := List (PyKey × PyVal)

/-- Lookup in an association list (Python `d[k]` / `k in d`; the code keeps
keys unique, in insertion order). -/
def alistGet {κ α : Type} [DecidableEq κ] : List (κ × α) → κ → Option α
  | [], _ => Option.none
  | kv :: rest, k => if kv.1 = k then some kv.2 else alistGet rest k

/-- Whether a key is present (Python `k in d`). -/
def alistHasKey {κ α : Type} [DecidableEq κ] (al : List (κ × α)) (k : κ) : Bool :=
  (alistGet al k).isSome

/-- Update the value stored under a key, leaving the rest unchanged
(Python `d[k] = f(d[k])`-style in-place mutation of the entry). -/
def alistModify {κ α : Type} [DecidableEq κ] (al : List (κ × α)) (k : κ) (f : α → α) :
    List (κ × α) :=
  al.map (fun kv => if kv.1 = k then (kv.1, f kv.2) else kv)

/-! ## `aws_sso_auditor/utils.py` and `shared/utils.py` -/

/-- `safe_get_nested(data, keys, default)` from `aws_sso_auditor/utils.py`:
walks `keys`, descending only when the current value is a dict containing
the key (`isinstance(current, dict) and key in current`), otherwise
returning `default`. Note that it never indexes into a Python list. -/
def safe_get_nested (data : PyVal) (keys : List PyKey) (default : PyVal) : PyVal :=
  match keys, data with
  | [], current => current
  | k :: ks, PyVal.dict entries =>
    match alistGet entries k with
    | some v => safe_get_nested v ks default
    | Option.none => default
  | _ :: _, _ => default

/-- The metadata keys removed by `clean_aws_response`. -/
def metadata_keys : List String := ["ResponseMetadata", "NextToken", "IsTruncated"]

/-- Python `d.pop(key, None)`: remove the entry under `key` if present. -/
def dict_pop (d : PyDict) (k : PyKey) : PyDict :=
  d.filter (fun kv => kv.1 != k)

/-- Value-level form of `clean_aws_response(response)`: copy the dict and pop
each metadata key in turn. Used where the auditor consumes the cleaned
value; the mutation-visible (heap) form is `clean_aws_response` below. -/
def clean_dict (response : PyDict) : PyDict :=
  metadata_keys.foldl (fun cleaned k => dict_pop cleaned (PyKey.s k)) response

/-! A small heap of Python dicts, to make `clean_aws_response`'s
`response.copy()` / in-place `pop` behaviour (and hence non-mutation of the
caller's dict) observable. References are indices into the heap. -/

/-- Heap of allocated Python dicts. -/
structure DictStore where
  heap : List PyDict
deriving Repr

/-- Dereference (out-of-range reads never occur in the modelled runs). -/
def readRef (s : DictStore) (r : Nat) : PyDict := s.heap.getD r []

/-- Overwrite the dict stored at a reference. -/
def writeRef (s : DictStore) (r : Nat) (d : PyDict) : DictStore := ⟨s.heap.set r d⟩

/-- Python `d.copy()`: allocate a fresh dict with the same entries. -/
def dict_copy (s : DictStore) (r : Nat) : Nat × DictStore :=
  (s.heap.length, ⟨s.heap ++ [readRef s r]⟩)

/-- Python `d.pop(key, None)` acting in place on the dict at `r`. -/
def dict_pop_ref (s : DictStore) (r : Nat) (k : PyKey) : DictStore :=
  writeRef s r (dict_pop (readRef s r) k)

/-- `clean_aws_response(response)` from `aws_sso_auditor/utils.py`:
`cleaned = response.copy()`, then `cleaned.pop(key, None)` for each of the
metadata keys, returning `cleaned`. Modelled on the dict heap so that the
copy (fresh reference) and the in-place pops are explicit. -/
def clean_aws_response (s : DictStore) (r : Nat) : Nat × DictStore :=
  let c := dict_copy s r
  (c.1, metadata_keys.foldl (fun st k => dict_pop_ref st c.1 (PyKey.s k)) c.2)

/-- Model of Python `bool(re.match(r'^\d{12}$', s))` (from
`shared/utils.py::validate_account_id`). `re.match` anchors at the start;
`$` matches at the end of the string or just before a trailing newline, so
the pattern accepts twelve digits optionally followed by one final
newline. `\d` is modelled on the decimal digits 0-9 (Python's `\d` also
matches non-ASCII Unicode decimal digits; no claim in scope depends on
those). -/
def re_match_account_pattern (s : String) : Bool :=
  (s.data.length == 12 && s.data.all Char.isDigit) ||
    (s.data.length == 13 && (s.data.take 12).all Char.isDigit &&
      s.data.getLast? == some '\n')

/-- `validate_account_id(account_id)` from `shared/utils.py` (re-exported
unchanged by `aws_sso_auditor/utils.py`): falsy (empty) strings are
rejected, then the regex above decides. -/
def validate_account_id (account_id : String) : Bool :=
  if account_id = "" then false
  else re_match_account_pattern account_id

/-! ## Generic list helpers used by the characterisation lemmas -/

/-- Keep the first occurrence of every element, in first-appearance order. -/
def dedupKeepFirst : List String → List String
  | [] => []
  | x :: xs => x :: (dedupKeepFirst xs).filter (fun y => y ≠ x)

/-- Fold a list into an accumulator, appending each element not already
present — exactly the `if x not in acc: acc.append(x)` pattern of the
source. -/
def foldIfNew (acc : List String) : List String → List String
  | [] => acc
  | x :: xs => foldIfNew (if x ∈ acc then acc else acc ++ [x]) xs

/-- Python `needle in hay` on strings (substring test). -/
def str_contains (hay needle : String) : Bool :=
  hay.data.tails.any (fun t => needle.data.isPrefixOf t)

/-! ## Data model of `aws_sso_auditor/auditor.py` -/

/-- One account-assignment record as consumed by the aggregation loop
(`assignment["PrincipalType"]`, `assignment["PrincipalId"]`,
`assignment["PermissionSetArn"]`). Assignments returned by the provider
are modelled as well-formed records carrying exactly these three fields. -/
structure Assignment where
  PrincipalType : String
  PrincipalId : String
  PermissionSetArn : String
deriving DecidableEq, Repr

/-- Result of `get_group_details`: always a three-key dict. -/
structure GroupDetails where
  GroupId : PyVal
  DisplayName : PyVal
  Description : PyVal
deriving Repr

/-- Result of `get_user_details`: always a four-key dict. -/
structure UserDetails where
  UserId : PyVal
  UserName : PyVal
  DisplayName : PyVal
  Email : PyVal
deriving Repr

/-- The `policies` dict built by `get_permission_set_policies`. -/
structure Policies where
  managed_policies : List PyVal
  customer_managed_policies : List PyVal
  inline_policy : PyVal
deriving Repr

/-- `{**permission_set_details, "Policies": permission_set_policies}` as
appended to a group's `PermissionSets` list. -/
structure PermissionSetFullDetails where
  details : PyDict
  Policies : Policies
deriving Repr

/-- A value of `groups_data`:
`{**group_details, "Members": group_members, "PermissionSets": []}`. -/
structure GroupRecord where
  GroupId : PyVal
  DisplayName : PyVal
  Description : PyVal
  Members : List UserDetails
  PermissionSets : List PermissionSetFullDetails
deriving Repr

/-- A value of `permission_sets_data`:
`{**permission_set_details, "Policies": ..., "AssignedGroups": []}`. -/
structure PermissionSetRecord where
  details : PyDict
  Policies : Policies
  AssignedGroups : List String
deriving Repr

/-- `groups_data`, a dict keyed by principal (group) id. -/
abbrev GroupsData := List (String × GroupRecord)

/-- `permission_sets_data`, a dict keyed by permission-set ARN. -/
abbrev PSData := List (String × PermissionSetRecord)

/-- One membership record of `list_group_memberships`
(`membership["MemberId"]["UserId"]`). -/
structure GroupMembership where
  UserId : String
deriving DecidableEq, Repr

/-- A provider call performed by the auditor, recorded for the trace. -/
inductive CallEvent where
  | listPermissionSetsProvisioned (accountId : String)
  | listAccountAssignments (accountId : String) (permissionSetArn : String)
  | describeGroup (groupId : String)
  | listGroupMemberships (groupId : String)
  | describeUser (userId : String)
  | describePermissionSet (arn : String)
  | listManagedPolicies (arn : String)
  | listCustomerManagedPolicyRefs (arn : String)
  | getInlinePolicy (arn : String)
deriving DecidableEq, Repr

/-- Outcome of `get_inline_policy_for_permission_set`: a response, the
dedicated `ResourceNotFoundException` (caught by the inner handler), or
any other exception (propagating to the outer handler). -/
inductive InlineResult where
  | ok (response : PyVal)
  | resourceNotFound
  | error (e : String)
deriving Repr

/-- Python truthiness of the values in scope (`if inline_response.get(...)`). -/
def pyTruthy : PyVal → Bool
  | PyVal.str s => s ≠ ""
  | PyVal.int n => n ≠ 0
  | PyVal.bool b => b
  | PyVal.dict entries => ¬ entries.isEmpty
  | PyVal.list items => ¬ items.isEmpty
  | PyVal.none => false

/-- The provider environment: the boto3 clients held by the auditor,
together with the configuration echoed into the report metadata. Each
operation either returns a well-formed result or raises (`.error`).
Paginated enumerations return their pages, each page already projected to
the field the source reads (`page["PermissionSets"]`,
`page["AccountAssignments"]`, `page["GroupMemberships"]`,
`page["AttachedManagedPolicies"]`,
`page["CustomerManagedPolicyReferences"]`). -/
structure AWSEnv where
  instance_arn : String
  identity_store_id : String
  aws_region : String
  output_formats : List String
  now : String
  list_permission_sets_provisioned_to_account :
    String → Except String (List (List String))
  list_account_assignments :
    String → String → Except String (List (List Assignment))
  describe_group : String → Except String PyVal
  list_group_memberships : String → Except String (List (List GroupMembership))
  describe_user : String → Except String PyVal
  describe_permission_set : String → Except String PyVal
  list_managed_policies : String → Except String (List (List PyVal))
  list_customer_managed_policy_refs : String → Except String (List (List PyVal))
  get_inline_policy : String → InlineResult
  json_loads : String → Except String PyVal

/-! ## Auditor methods (`AWSSSOAuditor`), each returning value × call trace -/

/-- `get_permission_sets_for_account`: paginate
`list_permission_sets_provisioned_to_account` and concatenate the pages;
any exception is caught, logged and turned into an empty list. -/
def get_permission_sets_for_account (env : AWSEnv) (account_id : String) :
    List String × List CallEvent :=
  ( match env.list_permission_sets_provisioned_to_account account_id with
    | Except.ok pages => pages.flatten
    | Except.error _ => [],
    [CallEvent.listPermissionSetsProvisioned account_id] )

/-- `get_account_assignments_for_permission_set`: paginate
`list_account_assignments` for one (permission set, account) pair; any
exception is caught and turned into an empty list. -/
def get_account_assignments_for_permission_set (env : AWSEnv)
    (permission_set_arn account_id : String) :
    List Assignment × List CallEvent :=
  ( match env.list_account_assignments account_id permission_set_arn with
    | Except.ok pages => pages.flatten
    | Except.error _ => [],
    [CallEvent.listAccountAssignments account_id permission_set_arn] )

/-- `get_all_account_assignments`: list the permission sets provisioned to
the account, then concatenate the assignments of each. -/
def get_all_account_assignments (env : AWSEnv) (account_id : String) :
    List Assignment × List CallEvent :=
  let r0 := get_permission_sets_for_account env account_id
  let results := r0.1.map
    (fun arn => get_account_assignments_for_permission_set env arn account_id)
  ((results.map (fun r => r.1)).flatten,
   r0.2 ++ (results.map (fun r => r.2)).flatten)

/-- The placeholder returned by `get_group_details` on any failure. -/
def unknownGroup (group_id : String) : GroupDetails :=
  { GroupId := PyVal.str group_id, DisplayName := PyVal.str "Unknown",
    Description := PyVal.str "" }

/-- `get_group_details`: `describe_group`, reading `GroupId`,
`DisplayName` and `.get("Description", "")`; any exception (including a
missing mandatory key) degrades to the `"Unknown"` placeholder. -/
def get_group_details (env : AWSEnv) (group_id : String) :
    GroupDetails × List CallEvent :=
  ( match env.describe_group group_id with
    | Except.ok (PyVal.dict entries) =>
      match alistGet entries (PyKey.s "GroupId"),
            alistGet entries (PyKey.s "DisplayName") with
      | some g, some d =>
        { GroupId := g, DisplayName := d,
          Description := (alistGet entries (PyKey.s "Description")).getD (PyVal.str "") }
      | _, _ => unknownGroup group_id
    | Except.ok _ => unknownGroup group_id
    | Except.error _ => unknownGroup group_id,
    [CallEvent.describeGroup group_id] )

/-- The placeholder returned by `get_user_details` on any failure. -/
def unknownUser (user_id : String) : UserDetails :=
  { UserId := PyVal.str user_id, UserName := PyVal.str "Unknown",
    DisplayName := PyVal.str "Unknown", Email := PyVal.str "" }

/-- `get_user_details`: `describe_user`, reading `UserId`, `UserName`,
`.get("DisplayName", UserName)` and
`safe_get_nested(response, ["Emails", 0, "Value"], "")`; any exception
degrades to the `"Unknown"` placeholder. -/
def get_user_details (env : AWSEnv) (user_id : String) :
    UserDetails × List CallEvent :=
  ( match env.describe_user user_id with
    | Except.ok (PyVal.dict entries) =>
      match alistGet entries (PyKey.s "UserId"),
            alistGet entries (PyKey.s "UserName") with
      | some u, some n =>
        { UserId := u, UserName := n,
          DisplayName := (alistGet entries (PyKey.s "DisplayName")).getD n,
          Email := safe_get_nested (PyVal.dict entries)
            [PyKey.s "Emails", PyKey.i 0, PyKey.s "Value"] (PyVal.str "") }
      | _, _ => unknownUser user_id
    | Except.ok _ => unknownUser user_id
    | Except.error _ => unknownUser user_id,
    [CallEvent.describeUser user_id] )

/-- `get_group_members`: paginate `list_group_memberships` and resolve
each `membership["MemberId"]["UserId"]` through `get_user_details`; any
exception of the enumeration itself is caught and turned into an empty
member list. -/
def get_group_members (env : AWSEnv) (group_id : String) :
    List UserDetails × List CallEvent :=
  match env.list_group_memberships group_id with
  | Except.error _ => ([], [CallEvent.listGroupMemberships group_id])
  | Except.ok pages =>
    let results := pages.flatten.map (fun m => get_user_details env m.UserId)
    (results.map (fun r => r.1),
     CallEvent.listGroupMemberships group_id :: (results.map (fun r => r.2)).flatten)

/-- `get_permission_set_details`: `describe_permission_set`, then
`clean_aws_response(response["PermissionSet"])`; any exception (missing
key, non-dict value) degrades to the empty dict `{}`. -/
def get_permission_set_details (env : AWSEnv) (permission_set_arn : String) :
    PyDict × List CallEvent :=
  ( match env.describe_permission_set permission_set_arn with
    | Except.ok (PyVal.dict entries) =>
      match alistGet entries (PyKey.s "PermissionSet") with
      | some (PyVal.dict ps) => clean_dict ps
      | some _ => []
      | Option.none => []
    | Except.ok _ => []
    | Except.error _ => [],
    [CallEvent.describePermissionSet permission_set_arn] )

/-- `get_customer_managed_policy_details`: reads `policy_ref["Name"]` and
`.get("Path", "/")` into a fixed-shape dict; on any exception the raw
`policy_ref` is returned unchanged. -/
def get_customer_managed_policy_details (policy_ref : PyVal) : PyVal :=
  match policy_ref with
  | PyVal.dict entries =>
    match alistGet entries (PyKey.s "Name") with
    | some nameV =>
      PyVal.dict
        [(PyKey.s "Name", nameV),
         (PyKey.s "Path", (alistGet entries (PyKey.s "Path")).getD (PyVal.str "/")),
         (PyKey.s "Type", PyVal.str "CustomerManaged"),
         (PyKey.s "Note",
          PyVal.str "Policy document not retrieved - requires target account access")]
    | Option.none => policy_ref
  | _ => policy_ref

/-- `get_permission_set_policies`: fill the `policies` dict incrementally
(managed pages, customer-managed refs, inline policy); any exception
outside the dedicated `ResourceNotFoundException` handler ends the `try`
block, and the partially filled dict is returned. -/
def get_permission_set_policies (env : AWSEnv) (permission_set_arn : String) :
    Policies × List CallEvent :=
  match env.list_managed_policies permission_set_arn with
  | Except.error _ =>
    ({ managed_policies := [], customer_managed_policies := [],
       inline_policy := PyVal.none },
     [CallEvent.listManagedPolicies permission_set_arn])
  | Except.ok mpages =>
    let managed := mpages.flatten
    match env.list_customer_managed_policy_refs permission_set_arn with
    | Except.error _ =>
      ({ managed_policies := managed, customer_managed_policies := [],
         inline_policy := PyVal.none },
       [CallEvent.listManagedPolicies permission_set_arn,
        CallEvent.listCustomerManagedPolicyRefs permission_set_arn])
    | Except.ok cpages =>
      let customer := cpages.flatten.map get_customer_managed_policy_details
      let evs := [CallEvent.listManagedPolicies permission_set_arn,
                  CallEvent.listCustomerManagedPolicyRefs permission_set_arn,
                  CallEvent.getInlinePolicy permission_set_arn]
      let policies_so_far : Policies :=
        { managed_policies := managed, customer_managed_policies := customer,
          inline_policy := PyVal.none }
      let final : Policies :=
        match env.get_inline_policy permission_set_arn with
        | InlineResult.resourceNotFound => policies_so_far
        | InlineResult.error _ => policies_so_far
        | InlineResult.ok response =>
          match response with
          | PyVal.dict entries =>
            let v := (alistGet entries (PyKey.s "InlinePolicy")).getD PyVal.none
            if pyTruthy v then
              match v with
              | PyVal.str s =>
                match env.json_loads s with
                | Except.ok parsed => { policies_so_far with inline_policy := parsed }
                | Except.error _ => policies_so_far
              | _ => policies_so_far
            else policies_so_far
          | _ => policies_so_far
      (final, evs)

/-! ## The aggregation loop of `audit_account` -/

/-- `principal_type == "GROUP"` as tested by the loop. -/
def isGroupAssign (a : Assignment) : Bool := a.PrincipalType == "GROUP"

/-- `groups_data[principal_id]["PermissionSets"].append(full)`. -/
def appendPSEntry (full : PermissionSetFullDetails) (g : GroupRecord) : GroupRecord :=
  { g with PermissionSets := g.PermissionSets ++ [full] }

/-- `if principal_id not in ps["AssignedGroups"]: append(principal_id)`. -/
def appendAssignedGroup (principal_id : String) (p : PermissionSetRecord) :
    PermissionSetRecord :=
  if principal_id ∈ p.AssignedGroups then p
  else { p with AssignedGroups := p.AssignedGroups ++ [principal_id] }

/-- The `groups_data` record inserted on first sight of a group:
`{**group_details, "Members": group_members, "PermissionSets": []}`. -/
def mkFreshGroup (env : AWSEnv) (principal_id : String) : GroupRecord :=
  { GroupId := (get_group_details env principal_id).1.GroupId,
    DisplayName := (get_group_details env principal_id).1.DisplayName,
    Description := (get_group_details env principal_id).1.Description,
    Members := (get_group_members env principal_id).1,
    PermissionSets := [] }

/-- The `permission_sets_data` record inserted on first sight of an ARN:
`{**permission_set_details, "Policies": ..., "AssignedGroups": []}`. -/
def mkFreshPS (env : AWSEnv) (permission_set_arn : String) : PermissionSetRecord :=
  { details := (get_permission_set_details env permission_set_arn).1,
    Policies := (get_permission_set_policies env permission_set_arn).1,
    AssignedGroups := [] }

/-- The body of `for assignment in assignments:` in `audit_account`,
acting on the pair (`groups_data`, `permission_sets_data`) and returning
the provider calls it performed. Follows the source statement for
statement:
1. on a GROUP assignment, first-sight fetch of group details and members,
   then fetch of the permission-set details and policies appended to that
   group's `PermissionSets` list;
2. first-sight fetch and insertion into `permission_sets_data` (for every
   principal type);
3. on a GROUP assignment, append of the group id to that permission set's
   `AssignedGroups` if not already present. -/
def audit_step (env : AWSEnv) (st : GroupsData × PSData) (a : Assignment) :
    (GroupsData × PSData) × List CallEvent :=
  let step1 : GroupsData × List CallEvent :=
    if isGroupAssign a then
      let first : GroupsData × List CallEvent :=
        if alistHasKey st.1 a.PrincipalId then (st.1, [])
        else
          let gd := get_group_details env a.PrincipalId
          let gm := get_group_members env a.PrincipalId
          (st.1 ++ [(a.PrincipalId, mkFreshGroup env a.PrincipalId)],
           gd.2 ++ gm.2)
      let psd := get_permission_set_details env a.PermissionSetArn
      let psp := get_permission_set_policies env a.PermissionSetArn
      let full : PermissionSetFullDetails := { details := psd.1, Policies := psp.1 }
      (alistModify first.1 a.PrincipalId (appendPSEntry full),
       first.2 ++ psd.2 ++ psp.2)
    else (st.1, [])
  let step2 : PSData × List CallEvent :=
    if alistHasKey st.2 a.PermissionSetArn then (st.2, [])
    else
      let psd := get_permission_set_details env a.PermissionSetArn
      let psp := get_permission_set_policies env a.PermissionSetArn
      (st.2 ++ [(a.PermissionSetArn, mkFreshPS env a.PermissionSetArn)],
       psd.2 ++ psp.2)
  let step3 : PSData :=
    if isGroupAssign a then
      alistModify step2.1 a.PermissionSetArn (appendAssignedGroup a.PrincipalId)
    else step2.1
  ((step1.1, step3), step1.2 ++ step2.2)

/-- The whole `for assignment in assignments:` loop. -/
def process_assignments (env : AWSEnv) :
    List Assignment → GroupsData → PSData → (GroupsData × PSData) × List CallEvent
  | [], gd, pd => ((gd, pd), [])
  | a :: rest, gd, pd =>
    let r := audit_step env (gd, pd) a
    let rRest := process_assignments env rest r.1.1 r.1.2
    (rRest.1, r.2 ++ rRest.2)

/-- The `config` sub-dict echoed into the report metadata. -/
structure ConfigEcho where
  aws_region : String
  output_formats : List String
deriving Repr

/-- The `metadata` block of the report. -/
structure Metadata where
  generated_at : String
  account_id : String
  sso_instance_arn : String
  identity_store_id : String
  auditor_version : String
  config : ConfigEcho
deriving Repr

/-- The `summary` block of the report. -/
structure Summary where
  total_groups : Nat
  total_permission_sets : Nat
  total_assignments : Nat
deriving DecidableEq, Repr

/-- The report dict built by `audit_account`. -/
structure Report where
  metadata : Metadata
  sso_groups_summary : List PyVal
  sso_permission_sets_summary : List PyVal
  sso_groups : List GroupRecord
  permission_sets : List PermissionSetRecord
  summary : Summary
deriving Repr

/-- `audit_account(account_id)`: retrieve all assignments, run the
aggregation loop, and build the report. The surrounding
`try/except Exception` wraps any exception escaping the body in
`AWSSSOAuditorError` (the `Except.error` case); under this model every
provider failure inside the body is already caught by the inner helpers,
so the body always completes with a report. -/
def audit_account (env : AWSEnv) (account_id : String) :
    Except String Report × List CallEvent :=
  let r0 := get_all_account_assignments env account_id
  let assignments := r0.1
  let r1 := process_assignments env assignments [] []
  let groups_data := r1.1.1
  let permission_sets_data := r1.1.2
  let group_names := (groups_data.map (fun kv => kv.2)).map (fun g => g.DisplayName)
  let permission_set_names := (permission_sets_data.map (fun kv => kv.2)).map
    (fun ps => (alistGet ps.details (PyKey.s "Name")).getD (PyVal.str "Unknown"))
  (Except.ok
    { metadata :=
        { generated_at := env.now, account_id := account_id,
          sso_instance_arn := env.instance_arn,
          identity_store_id := env.identity_store_id,
          auditor_version := "1.0.0",
          config := { aws_region := env.aws_region,
                      output_formats := env.output_formats } },
      sso_groups_summary := group_names,
      sso_permission_sets_summary := permission_set_names,
      sso_groups := groups_data.map (fun kv => kv.2),
      permission_sets := permission_sets_data.map (fun kv => kv.2),
      summary :=
        { total_groups := groups_data.length,
          total_permission_sets := permission_sets_data.length,
          total_assignments := assignments.length } },
   r0.2 ++ r1.2)

/-! ## Derived notions used by the claim statements -/

/-- The flat assignment sequence retrieved by `audit_account`. -/
def allAssignmentsV (env : AWSEnv) (account_id : String) : List Assignment :=
  (get_all_account_assignments env account_id).1

/-- Principal ids of the GROUP-type assignments, in sequence order. -/
def groupAssignIds (l : List Assignment) : List String :=
  (l.filter isGroupAssign).map (fun a => a.PrincipalId)

/-- Permission-set ARNs of all assignments, in sequence order. -/
def arnsOf (l : List Assignment) : List String :=
  l.map (fun a => a.PermissionSetArn)

/-- Principal ids of the GROUP-type assignments carrying a given
permission-set ARN, in sequence order. -/
def groupIdsForArn (l : List Assignment) (p : String) : List String :=
  (l.filter (fun a => isGroupAssign a && a.PermissionSetArn == p)).map
    (fun a => a.PrincipalId)

/-- The `{**permission_set_details, "Policies": ...}` record the loop
appends for a permission-set ARN (its value is a function of the ARN). -/
def psFullV (env : AWSEnv) (arn : String) : PermissionSetFullDetails :=
  { details := (get_permission_set_details env arn).1,
    Policies := (get_permission_set_policies env arn).1 }

/-- The permission-set detail entries accumulated under a group: one per
GROUP-type assignment naming that group, in sequence order. -/
def groupPSEntries (env : AWSEnv) (l : List Assignment) (g : String) :
    List PermissionSetFullDetails :=
  (l.filter (fun a => isGroupAssign a && a.PrincipalId == g)).map
    (fun a => psFullV env a.PermissionSetArn)

/-- The `groups_data` record created on first sight of group `g` and
completed over the whole sequence `l`. -/
def freshGroupRecord (env : AWSEnv) (l : List Assignment) (g : String) : GroupRecord :=
  { GroupId := (get_group_details env g).1.GroupId,
    DisplayName := (get_group_details env g).1.DisplayName,
    Description := (get_group_details env g).1.Description,
    Members := (get_group_members env g).1,
    PermissionSets := groupPSEntries env l g }

/-- The `permission_sets_data` record created on first sight of ARN `p`
and completed over the whole sequence `l`. -/
def freshPSRecord (env : AWSEnv) (l : List Assignment) (p : String) : PermissionSetRecord :=
  { details := (get_permission_set_details env p).1,
    Policies := (get_permission_set_policies env p).1,
    AssignedGroups := dedupKeepFirst (groupIdsForArn l p) }

/-- The final `groups_data` dict of a run of `audit_account`. -/
def audit_groups_data (env : AWSEnv) (account_id : String) : GroupsData :=
  (process_assignments env (allAssignmentsV env account_id) [] []).1.1

/-- The final `permission_sets_data` dict of a run of `audit_account`. -/
def audit_ps_data (env : AWSEnv) (account_id : String) : PSData :=
  (process_assignments env (allAssignmentsV env account_id) [] []).1.2

/-- The report `audit_account` emits when the assignment sequence is
empty: all collections and name lists empty, all summary counts zero. -/
def emptyReport (env : AWSEnv) (account_id : String) : Report :=
  { metadata :=
      { generated_at := env.now, account_id := account_id,
        sso_instance_arn := env.instance_arn,
        identity_store_id := env.identity_store_id,
        auditor_version := "1.0.0",
        config := { aws_region := env.aws_region,
                    output_formats := env.output_formats } },
    sso_groups_summary := [],
    sso_permission_sets_summary := [],
    sso_groups := [],
    permission_sets := [],
    summary :=
      { total_groups := 0, total_permission_sets := 0, total_assignments := 0 } }

/-! ## `aws_access_auditor/aws_client_manager.py` (claim C6) -/

/-- Exception classes of `aws_access_auditor/exceptions.py` relevant to
client construction (all subclasses of `AWSSSOAuditorError`). -/
inductive ExcKind where
  | generic
  | ssoInstanceNotFound
  | awsClientError
deriving DecidableEq, Repr

/-- A raised Python exception: kind, `str(e)` message, and the explicit
`raise ... from e` cause when present. -/
inductive PyExc where
  | root (kind : ExcKind) (msg : String)
  | chained (kind : ExcKind) (msg : String) (cause : PyExc)
deriving DecidableEq, Repr

/-- The message of an exception (`str(e)`). -/
def PyExc.msg : PyExc → String
  | PyExc.root _ m => m
  | PyExc.chained _ m _ => m

/-- The class of an exception. -/
def PyExc.kind : PyExc → ExcKind
  | PyExc.root k _ => k
  | PyExc.chained k _ _ => k

/-- One list-instances record (`Instances[0]["IdentityStoreId"]`,
`Instances[0]["InstanceArn"]`). -/
structure SSOInstanceRec where
  IdentityStoreId : String
  InstanceArn : String
deriving DecidableEq, Repr

/-- Environment of the client manager: `session.client(name)` construction
and the `list_instances` call, each of which may raise. -/
structure MgrEnv where
  create_client : String → Except String Unit
  list_instances : Except String (List SSOInstanceRec)

/-- `AWSClientManager._discover_sso_instance`: `list_instances`, raise
`SSOInstanceNotFoundError("No SSO instances found in this AWS account")`
on an empty instance list, take the first instance otherwise. The
`except Exception` handler re-raises any exception whose message contains
"No SSO instances found" unchanged, and wraps every other failure in
`SSOInstanceNotFoundError(f"Failed to get SSO instance: {e}")`. -/
def discover_sso_instance (env : MgrEnv) : Except PyExc SSOInstanceRec :=
  let body : Except PyExc SSOInstanceRec :=
    match env.list_instances with
    | Except.error e => Except.error (PyExc.root ExcKind.generic e)
    | Except.ok [] =>
      Except.error (PyExc.root ExcKind.ssoInstanceNotFound
        "No SSO instances found in this AWS account")
    | Except.ok (inst :: _) => Except.ok inst
  match body with
  | Except.ok v => Except.ok v
  | Except.error e =>
    if str_contains e.msg "No SSO instances found" then Except.error e
    else Except.error (PyExc.root ExcKind.ssoInstanceNotFound
      ("Failed to get SSO instance: " ++ e.msg))

/-- `AWSClientManager._initialize_sso_clients` (underscore dropped):
construct the three service clients, then discover the SSO instance; the
`except Exception` handler wraps any escaping exception `e` — including
the discovery errors — in
`AWSClientError(f"Error initializing SSO clients: {e}") from e`. -/
def init_sso_clients (env : MgrEnv) : Except PyExc SSOInstanceRec :=
  let body : Except PyExc SSOInstanceRec :=
    match env.create_client "sso-admin" with
    | Except.error e => Except.error (PyExc.root ExcKind.generic e)
    | Except.ok _ =>
      match env.create_client "identitystore" with
      | Except.error e => Except.error (PyExc.root ExcKind.generic e)
      | Except.ok _ =>
        match env.create_client "organizations" with
        | Except.error e => Except.error (PyExc.root ExcKind.generic e)
        | Except.ok _ => discover_sso_instance env
  match body with
  | Except.ok v => Except.ok v
  | Except.error e =>
    Except.error (PyExc.chained ExcKind.awsClientError
      ("Error initializing SSO clients: " ++ e.msg) e)

/-! ## Association-list lemmas -/

theorem alistGet_append {κ α : Type} [DecidableEq κ] (al bl : List (κ × α)) (k : κ) :
    alistGet (al ++ bl) k =
      match alistGet al k with
      | some v => some v
      | Option.none => alistGet bl k := by
  induction al with
  | nil => simp [alistGet]
  | cons kv rest ih => by_cases h : kv.1 = k <;> simp [alistGet, h, ih]

theorem alistGet_modify {κ α : Type} [DecidableEq κ] (al : List (κ × α)) (k : κ)
    (f : α → α) (k' : κ) :
    alistGet (alistModify al k f) k' =
      if k' = k then (alistGet al k).map f else alistGet al k' := by
  induction al with
  | nil => simp [alistModify, alistGet]
  | cons kv rest ih =>
    simp only [alistModify] at ih ⊢
    by_cases h1 : kv.1 = k
    · by_cases h2 : k' = k
      · subst h2
        simp [alistGet, h1, ih]
      · have hne : kv.1 ≠ k' := fun hc => h2 (hc.symm.trans h1)
        have h2' : ¬ k = k' := fun hc => h2 hc.symm
        simp [alistGet, h1, hne, ih, h2, h2']
    · by_cases h3 : kv.1 = k'
      · have h2 : ¬ k' = k := fun hc => h1 (h3.trans hc)
        simp [alistGet, h1, h3, ih, h2]
      · simp [alistGet, h1, h3, ih]

theorem alistModify_keys {κ α : Type} [DecidableEq κ] (al : List (κ × α)) (k : κ)
    (f : α → α) :
    (alistModify al k f).map Prod.fst = al.map Prod.fst := by
  induction al with
  | nil => rfl
  | cons kv rest ih =>
    by_cases h : kv.1 = k <;> simp [alistModify, h] <;>
      simpa [alistModify] using ih

theorem alistGet_eq_none_iff {κ α : Type} [DecidableEq κ] (al : List (κ × α)) (k : κ) :
    alistGet al k = Option.none ↔ k ∉ al.map Prod.fst := by
  induction al with
  | nil => simp [alistGet]
  | cons kv rest ih =>
    by_cases h : kv.1 = k
    · simp [alistGet, h]
    · have h' : ¬ k = kv.1 := fun hc => h hc.symm
      simp [alistGet, h, h', ih]

theorem alistHasKey_iff {κ α : Type} [DecidableEq κ] (al : List (κ × α)) (k : κ) :
    alistHasKey al k = true ↔ k ∈ al.map Prod.fst := by
  rw [alistHasKey, Option.isSome_iff_ne_none, ne_eq, alistGet_eq_none_iff, not_not]

theorem alistGet_mem {κ α : Type} [DecidableEq κ] {al : List (κ × α)} {k : κ} {v : α}
    (h : alistGet al k = some v) : (k, v) ∈ al := by
  induction al with
  | nil => simp [alistGet] at h
  | cons kv rest ih =>
    by_cases h1 : kv.1 = k
    · simp only [alistGet, if_pos h1] at h
      have h2 : kv.2 = v := Option.some.inj h
      have hkv : kv = (k, v) := by rw [← h1, ← h2]
      exact List.mem_cons.mpr (Or.inl hkv.symm)
    · simp only [alistGet, if_neg h1] at h
      exact List.mem_cons_of_mem _ (ih h)

theorem alistGet_of_mem_nodup {κ α : Type} [DecidableEq κ] {al : List (κ × α)}
    {k : κ} {v : α} (h : (k, v) ∈ al) (hnd : (al.map Prod.fst).Nodup) :
    alistGet al k = some v := by
  induction al with
  | nil => simp at h
  | cons kv rest ih =>
    rw [List.map_cons, List.nodup_cons] at hnd
    rcases List.mem_cons.mp h with heq | hmem
    · rw [← heq]
      simp [alistGet]
    · have hk : k ∈ rest.map Prod.fst :=
        List.mem_map.mpr ⟨(k, v), hmem, rfl⟩
      have hne : kv.1 ≠ k := fun hc => hnd.1 (hc ▸ hk)
      simp [alistGet, hne, ih hmem hnd.2]

/-! ## Deduplication lemmas -/

theorem mem_dedupKeepFirst {l : List String} {y : String} :
    y ∈ dedupKeepFirst l ↔ y ∈ l := by
  induction l with
  | nil => simp [dedupKeepFirst]
  | cons x xs ih =>
    by_cases h : y = x <;>
      simp [dedupKeepFirst, List.mem_filter, h, ih]

theorem dedupKeepFirst_nodup (l : List String) : (dedupKeepFirst l).Nodup := by
  induction l with
  | nil => simp [dedupKeepFirst]
  | cons x xs ih =>
    rw [dedupKeepFirst, List.nodup_cons]
    refine ⟨fun hmem => ?_, ih.filter _⟩
    simp [List.mem_filter] at hmem

theorem foldIfNew_eq (l : List String) :
    ∀ acc : List String,
      foldIfNew acc l = acc ++ (dedupKeepFirst l).filter (fun y => decide (y ∉ acc)) := by
  induction l with
  | nil => intro acc; simp [foldIfNew, dedupKeepFirst]
  | cons x xs ih =>
    intro acc
    by_cases hx : x ∈ acc
    · rw [foldIfNew, if_pos hx, ih acc]
      congr 1
      rw [dedupKeepFirst, List.filter_cons]
      have hdx : decide (x ∉ acc) = false := by simp [hx]
      rw [hdx]
      simp only [Bool.false_eq_true, if_false]
      rw [List.filter_filter]
      refine List.filter_congr fun y _ => ?_
      by_cases hy : y ∈ acc
      · simp [hy]
      · have hyx : y ≠ x := fun hc => hy (hc ▸ hx)
        simp [hy, hyx]
    · rw [foldIfNew, if_neg hx, ih (acc ++ [x])]
      rw [dedupKeepFirst, List.filter_cons]
      have hdx : decide (x ∉ acc) = true := by simp [hx]
      rw [hdx]
      simp only [if_true, List.append_assoc, List.singleton_append]
      congr 2
      rw [List.filter_filter]
      refine List.filter_congr fun y _ => ?_
      by_cases hy : y ∈ acc <;> by_cases hyx : y = x <;>
        simp [hy, hyx, List.mem_append]

theorem foldIfNew_nil (l : List String) : foldIfNew [] l = dedupKeepFirst l := by
  rw [foldIfNew_eq]
  simp

theorem dedupKeepFirst_toFinset (l : List String) :
    (dedupKeepFirst l).toFinset = l.toFinset := by
  ext y
  simp [List.mem_toFinset, mem_dedupKeepFirst]

theorem dedupKeepFirst_length (l : List String) :
    (dedupKeepFirst l).length = l.toFinset.card := by
  rw [← dedupKeepFirst_toFinset]
  exact (List.toFinset_card_of_nodup (dedupKeepFirst_nodup l)).symm

/-! ## Event traces of the fetch helpers -/

theorem get_group_details_events (env : AWSEnv) (gid : String) :
    (get_group_details env gid).2 = [CallEvent.describeGroup gid] := rfl

theorem get_user_details_events (env : AWSEnv) (uid : String) :
    (get_user_details env uid).2 = [CallEvent.describeUser uid] := rfl

theorem get_permission_set_details_events (env : AWSEnv) (arn : String) :
    (get_permission_set_details env arn).2 = [CallEvent.describePermissionSet arn] := rfl

theorem get_group_members_events_mem (env : AWSEnv) (gid : String) {x : CallEvent}
    (hx : x ∈ (get_group_members env gid).2) :
    x = CallEvent.listGroupMemberships gid ∨ ∃ u, x = CallEvent.describeUser u := by
  unfold get_group_members at hx
  cases h : env.list_group_memberships gid with
  | error e => rw [h] at hx; simp at hx; exact Or.inl hx
  | ok pages =>
    rw [h] at hx
    simp only [List.mem_cons] at hx
    rcases hx with hx | hx
    · exact Or.inl hx
    · right
      simp only [List.mem_flatten, List.mem_map] at hx
      obtain ⟨l, ⟨r, ⟨m, _, hm⟩, hr⟩, hl⟩ := hx
      rw [← hm] at hr
      rw [← hr, get_user_details_events] at hl
      simp at hl
      exact ⟨m.UserId, hl⟩

theorem get_permission_set_policies_events_mem (env : AWSEnv) (arn : String)
    {x : CallEvent} (hx : x ∈ (get_permission_set_policies env arn).2) :
    x = CallEvent.listManagedPolicies arn ∨
      x = CallEvent.listCustomerManagedPolicyRefs arn ∨
      x = CallEvent.getInlinePolicy arn := by
  unfold get_permission_set_policies at hx
  cases h1 : env.list_managed_policies arn with
  | error e => rw [h1] at hx; simp at hx; exact Or.inl hx
  | ok mpages =>
    rw [h1] at hx
    cases h2 : env.list_customer_managed_policy_refs arn with
    | error e =>
      rw [h2] at hx
      simp at hx
      tauto
    | ok cpages =>
      rw [h2] at hx
      simp at hx
      tauto

/-! ## Characterisation of one loop iteration -/

/-- The `if principal_id not in groups_data: groups_data[principal_id] = ...`
insertion. -/
def groupInsert (env : AWSEnv) (gd : GroupsData) (principal_id : String) : GroupsData :=
  if alistHasKey gd principal_id then gd
  else gd ++ [(principal_id, mkFreshGroup env principal_id)]

/-- The `if permission_set_arn not in permission_sets_data: ...` insertion. -/
def psInsert (env : AWSEnv) (pd : PSData) (permission_set_arn : String) : PSData :=
  if alistHasKey pd permission_set_arn then pd
  else pd ++ [(permission_set_arn, mkFreshPS env permission_set_arn)]

theorem alistGet_append_single_ne {κ α : Type} [DecidableEq κ] (al : List (κ × α))
    (k : κ) (v : α) (k' : κ) (h : ¬ k = k') :
    alistGet (al ++ [(k, v)]) k' = alistGet al k' := by
  rw [alistGet_append]
  cases hx : alistGet al k' <;> simp [alistGet, h]

theorem alistGet_append_single_none {κ α : Type} [DecidableEq κ] (al : List (κ × α))
    (k : κ) (v : α) (h : alistGet al k = Option.none) :
    alistGet (al ++ [(k, v)]) k = some v := by
  rw [alistGet_append, h]
  simp [alistGet]

theorem appendAssignedGroup_eq (principal_id : String) (r : PermissionSetRecord) :
    appendAssignedGroup principal_id r =
      { r with AssignedGroups :=
          if principal_id ∈ r.AssignedGroups then r.AssignedGroups
          else r.AssignedGroups ++ [principal_id] } := by
  by_cases hm : principal_id ∈ r.AssignedGroups <;> simp [appendAssignedGroup, hm]

theorem groupAssignIds_cons (a : Assignment) (rest : List Assignment) :
    groupAssignIds (a :: rest) =
      if isGroupAssign a then a.PrincipalId :: groupAssignIds rest
      else groupAssignIds rest := by
  cases h : isGroupAssign a <;> simp [groupAssignIds, List.filter_cons, h]

theorem arnsOf_cons (a : Assignment) (rest : List Assignment) :
    arnsOf (a :: rest) = a.PermissionSetArn :: arnsOf rest := rfl

theorem groupIdsForArn_cons (a : Assignment) (rest : List Assignment) (p : String) :
    groupIdsForArn (a :: rest) p =
      if isGroupAssign a && a.PermissionSetArn == p then
        a.PrincipalId :: groupIdsForArn rest p
      else groupIdsForArn rest p := by
  cases h : (isGroupAssign a && a.PermissionSetArn == p) <;>
    simp [groupIdsForArn, List.filter_cons, h]

theorem groupPSEntries_cons (env : AWSEnv) (a : Assignment) (rest : List Assignment)
    (g : String) :
    groupPSEntries env (a :: rest) g =
      if isGroupAssign a && a.PrincipalId == g then
        psFullV env a.PermissionSetArn :: groupPSEntries env rest g
      else groupPSEntries env rest g := by
  cases h : (isGroupAssign a && a.PrincipalId == g) <;>
    simp [groupPSEntries, List.filter_cons, h]

theorem audit_step_gd (env : AWSEnv) (st : GroupsData × PSData) (a : Assignment) :
    (audit_step env st a).1.1 =
      if isGroupAssign a then
        alistModify (groupInsert env st.1 a.PrincipalId) a.PrincipalId
          (appendPSEntry (psFullV env a.PermissionSetArn))
      else st.1 := by
  cases hG : isGroupAssign a <;> cases hK : alistHasKey st.1 a.PrincipalId <;>
    simp [audit_step, groupInsert, hG, hK, psFullV]

theorem audit_step_pd (env : AWSEnv) (st : GroupsData × PSData) (a : Assignment) :
    (audit_step env st a).1.2 =
      if isGroupAssign a then
        alistModify (psInsert env st.2 a.PermissionSetArn) a.PermissionSetArn
          (appendAssignedGroup a.PrincipalId)
      else psInsert env st.2 a.PermissionSetArn := by
  cases hG : isGroupAssign a <;> cases hK2 : alistHasKey st.2 a.PermissionSetArn <;>
    simp [audit_step, psInsert, hG, hK2]

theorem process_assignments_cons (env : AWSEnv) (a : Assignment)
    (rest : List Assignment) (gd : GroupsData) (pd : PSData) :
    process_assignments env (a :: rest) gd pd =
      ((process_assignments env rest (audit_step env (gd, pd) a).1.1
          (audit_step env (gd, pd) a).1.2).1,
       (audit_step env (gd, pd) a).2 ++
         (process_assignments env rest (audit_step env (gd, pd) a).1.1
           (audit_step env (gd, pd) a).1.2).2) := rfl

/-! ## Characterisation of the whole loop -/

theorem process_gd_keys (env : AWSEnv) (l : List Assignment) :
    ∀ (gd : GroupsData) (pd : PSData),
      ((process_assignments env l gd pd).1.1).map Prod.fst =
        foldIfNew (gd.map Prod.fst) (groupAssignIds l) := by
  induction l with
  | nil => intro gd pd; simp [process_assignments, groupAssignIds, foldIfNew]
  | cons a rest ih =>
    intro gd pd
    rw [process_assignments_cons]
    dsimp only
    rw [ih, audit_step_gd]
    rw [groupAssignIds_cons]
    cases hG : isGroupAssign a
    · simp
    · simp only [if_true]
      rw [alistModify_keys]
      cases hK : alistHasKey gd a.PrincipalId
      · have hmem : a.PrincipalId ∉ gd.map Prod.fst := fun hmem => by
          rw [(alistHasKey_iff gd a.PrincipalId).mpr hmem] at hK
          simp at hK
        rw [groupInsert, hK]
        simp only [Bool.false_eq_true, if_false, List.map_append, List.map_cons,
          List.map_nil]
        rw [foldIfNew]
        rw [if_neg hmem]
      · have hmem : a.PrincipalId ∈ gd.map Prod.fst :=
          (alistHasKey_iff gd a.PrincipalId).mp hK
        rw [groupInsert, hK]
        simp only [if_true]
        rw [foldIfNew]
        rw [if_pos hmem]

theorem process_pd_keys (env : AWSEnv) (l : List Assignment) :
    ∀ (gd : GroupsData) (pd : PSData),
      ((process_assignments env l gd pd).1.2).map Prod.fst =
        foldIfNew (pd.map Prod.fst) (arnsOf l) := by
  induction l with
  | nil => intro gd pd; simp [process_assignments, arnsOf, foldIfNew]
  | cons a rest ih =>
    intro gd pd
    rw [process_assignments_cons]
    dsimp only
    rw [ih, audit_step_pd]
    rw [arnsOf_cons]
    have hkeys :
        (psInsert env pd a.PermissionSetArn).map Prod.fst =
          if a.PermissionSetArn ∈ pd.map Prod.fst then pd.map Prod.fst
          else pd.map Prod.fst ++ [a.PermissionSetArn] := by
      cases hK : alistHasKey pd a.PermissionSetArn
      · have hmem : a.PermissionSetArn ∉ pd.map Prod.fst := fun hmem => by
          rw [(alistHasKey_iff pd a.PermissionSetArn).mpr hmem] at hK
          simp at hK
        rw [psInsert, hK]
        simp [hmem]
      · have hmem : a.PermissionSetArn ∈ pd.map Prod.fst :=
          (alistHasKey_iff pd a.PermissionSetArn).mp hK
        rw [psInsert, hK]
        simp [hmem]
    cases hG : isGroupAssign a
    · simp only [Bool.false_eq_true, if_false]
      rw [hkeys, foldIfNew]
    · simp only [if_true]
      rw [alistModify_keys, hkeys, foldIfNew]

theorem process_gd_get (env : AWSEnv) (l : List Assignment) :
    ∀ (gd : GroupsData) (pd : PSData) (g : String),
      alistGet (process_assignments env l gd pd).1.1 g =
        match alistGet gd g with
        | some r =>
          some { r with PermissionSets := r.PermissionSets ++ groupPSEntries env l g }
        | Option.none =>
          if g ∈ groupAssignIds l then some (freshGroupRecord env l g)
          else Option.none := by
  induction l with
  | nil =>
    intro gd pd g
    simp only [process_assignments, groupPSEntries, groupAssignIds, freshGroupRecord]
    cases hget : alistGet gd g <;> simp [List.filter_nil]
  | cons a rest ih =>
    intro gd pd g
    rw [process_assignments_cons]
    dsimp only
    rw [ih, audit_step_gd]
    cases hG : isGroupAssign a
    · have hcg : (isGroupAssign a && a.PrincipalId == g) = false := by simp [hG]
      simp [groupPSEntries_cons, groupAssignIds_cons, hcg, hG, freshGroupRecord]
    · simp only [if_true]
      by_cases hpg : a.PrincipalId = g
      · subst hpg
        have hcg : (isGroupAssign a && a.PrincipalId == a.PrincipalId) = true := by
          simp [hG]
        cases hK : alistHasKey gd a.PrincipalId
        · have hget : alistGet gd a.PrincipalId = Option.none := by
            cases hx : alistGet gd a.PrincipalId with
            | none => rfl
            | some r => rw [alistHasKey, hx] at hK; simp at hK
          rw [groupInsert, hK]
          simp only [Bool.false_eq_true, if_false]
          rw [alistGet_modify, if_pos rfl,
            alistGet_append_single_none gd _ _ hget, hget]
          simp [appendPSEntry, mkFreshGroup, freshGroupRecord, groupPSEntries_cons,
            groupAssignIds_cons, hcg, hG]
        · obtain ⟨r0, hr0⟩ : ∃ r0, alistGet gd a.PrincipalId = some r0 := by
            cases hx : alistGet gd a.PrincipalId with
            | none => rw [alistHasKey, hx] at hK; simp at hK
            | some r => exact ⟨r, rfl⟩
          rw [groupInsert, hK]
          simp only [if_true]
          rw [alistGet_modify, if_pos rfl, hr0]
          simp [appendPSEntry, groupPSEntries_cons, hcg, hG, List.append_assoc]
      · have hcg : (isGroupAssign a && a.PrincipalId == g) = false := by
          simp [hpg]
        have hgp : ¬ g = a.PrincipalId := fun hc => hpg hc.symm
        have hstep :
            alistGet (alistModify (groupInsert env gd a.PrincipalId) a.PrincipalId
              (appendPSEntry (psFullV env a.PermissionSetArn))) g = alistGet gd g := by
          rw [alistGet_modify, if_neg hgp]
          cases hK : alistHasKey gd a.PrincipalId
          · rw [groupInsert, hK]
            simp only [Bool.false_eq_true, if_false]
            exact alistGet_append_single_ne gd _ _ _ hpg
          · rw [groupInsert, hK]
            simp
        rw [hstep]
        cases hget : alistGet gd g
        · simp [groupPSEntries_cons, groupAssignIds_cons, hcg, hG, hpg, hgp,
            freshGroupRecord]
        · simp [groupPSEntries_cons, groupAssignIds_cons, hcg, hG, hpg, hgp]

theorem process_pd_get (env : AWSEnv) (l : List Assignment) :
    ∀ (gd : GroupsData) (pd : PSData) (p : String),
      alistGet (process_assignments env l gd pd).1.2 p =
        match alistGet pd p with
        | some r =>
          some { r with AssignedGroups := foldIfNew r.AssignedGroups (groupIdsForArn l p) }
        | Option.none =>
          if p ∈ arnsOf l then
            some { details := (get_permission_set_details env p).1,
                   Policies := (get_permission_set_policies env p).1,
                   AssignedGroups := foldIfNew [] (groupIdsForArn l p) }
          else Option.none := by
  induction l with
  | nil =>
    intro gd pd p
    simp only [process_assignments, groupIdsForArn, arnsOf, foldIfNew]
    cases hget : alistGet pd p <;> simp [List.filter_nil]
  | cons a rest ih =>
    intro gd pd p
    rw [process_assignments_cons]
    dsimp only
    rw [ih, audit_step_pd]
    by_cases hap : a.PermissionSetArn = p
    · subst hap
      cases hK : alistHasKey pd a.PermissionSetArn
      · have hget : alistGet pd a.PermissionSetArn = Option.none := by
          cases hx : alistGet pd a.PermissionSetArn with
          | none => rfl
          | some r => rw [alistHasKey, hx] at hK; simp at hK
        have hins :
            alistGet (psInsert env pd a.PermissionSetArn) a.PermissionSetArn =
              some (mkFreshPS env a.PermissionSetArn) := by
          rw [psInsert, hK]
          simp only [Bool.false_eq_true, if_false]
          exact alistGet_append_single_none pd _ _ hget
        cases hG : isGroupAssign a
        · simp only [Bool.false_eq_true, if_false]
          rw [hins, hget]
          simp [mkFreshPS, groupIdsForArn_cons, arnsOf_cons, hG]
        · simp only [if_true]
          rw [alistGet_modify, if_pos rfl, hins, hget]
          simp [appendAssignedGroup_eq, mkFreshPS, groupIdsForArn_cons, arnsOf_cons,
            hG, foldIfNew]
      · obtain ⟨r0, hr0⟩ : ∃ r0, alistGet pd a.PermissionSetArn = some r0 := by
          cases hx : alistGet pd a.PermissionSetArn with
          | none => rw [alistHasKey, hx] at hK; simp at hK
          | some r => exact ⟨r, rfl⟩
        have hins : psInsert env pd a.PermissionSetArn = pd := by
          rw [psInsert, hK]
          simp
        cases hG : isGroupAssign a
        · simp only [Bool.false_eq_true, if_false]
          rw [hins, hr0]
          simp [groupIdsForArn_cons, hG]
        · simp only [if_true]
          rw [hins, alistGet_modify, if_pos rfl, hr0]
          simp [appendAssignedGroup_eq, groupIdsForArn_cons, hG, foldIfNew]
    · have hpa : ¬ p = a.PermissionSetArn := fun hc => hap hc.symm
      have hins :
          alistGet (psInsert env pd a.PermissionSetArn) p = alistGet pd p := by
        cases hK : alistHasKey pd a.PermissionSetArn
        · rw [psInsert, hK]
          simp only [Bool.false_eq_true, if_false]
          exact alistGet_append_single_ne pd _ _ _ hap
        · rw [psInsert, hK]
          simp
      have hcond : (isGroupAssign a && a.PermissionSetArn == p) = false := by
        simp [hap]
      cases hG : isGroupAssign a
      · simp only [Bool.false_eq_true, if_false]
        rw [hins]
        cases hget : alistGet pd p <;>
          simp [groupIdsForArn_cons, arnsOf_cons, hcond, hpa, hap]
      · simp only [if_true]
        rw [alistGet_modify, if_neg hpa, hins]
        cases hget : alistGet pd p <;>
          simp [groupIdsForArn_cons, arnsOf_cons, hcond, hpa, hap]

/-! ## Fetch counts: group data is fetched only on first sight -/

theorem get_group_members_events_shape (env : AWSEnv) (gid : String) :
    ∃ rest, (get_group_members env gid).2 = CallEvent.listGroupMemberships gid :: rest ∧
      ∀ x ∈ rest, ∃ u, x = CallEvent.describeUser u := by
  unfold get_group_members
  cases h : env.list_group_memberships gid with
  | error e => exact ⟨[], rfl, by simp⟩
  | ok pages =>
    refine ⟨_, rfl, ?_⟩
    intro x hx
    simp only [List.mem_flatten, List.mem_map] at hx
    obtain ⟨l, ⟨r, ⟨m, _, hm⟩, hr⟩, hl⟩ := hx
    rw [← hm] at hr
    rw [← hr, get_user_details_events] at hl
    simp at hl
    exact ⟨m.UserId, hl⟩

theorem get_group_members_count_dg (env : AWSEnv) (gid g : String) :
    (get_group_members env gid).2.count (CallEvent.describeGroup g) = 0 := by
  obtain ⟨rest, heq, hall⟩ := get_group_members_events_shape env gid
  rw [heq]
  rw [List.count_cons]
  have h0 : rest.count (CallEvent.describeGroup g) = 0 := by
    rw [List.count_eq_zero]
    intro hmem
    obtain ⟨u, hu⟩ := hall _ hmem
    simp at hu
  simp [h0]

theorem get_group_members_count_lgm (env : AWSEnv) (gid g : String) :
    (get_group_members env gid).2.count (CallEvent.listGroupMemberships g) =
      if gid = g then 1 else 0 := by
  obtain ⟨rest, heq, hall⟩ := get_group_members_events_shape env gid
  rw [heq]
  rw [List.count_cons]
  have h0 : rest.count (CallEvent.listGroupMemberships g) = 0 := by
    rw [List.count_eq_zero]
    intro hmem
    obtain ⟨u, hu⟩ := hall _ hmem
    simp at hu
  by_cases hg : gid = g
  · simp [h0, hg]
  · have hg2 : ¬ g = gid := fun hc => hg hc.symm
    simp [h0, hg, hg2]

theorem get_permission_set_policies_count_dg (env : AWSEnv) (arn g : String) :
    (get_permission_set_policies env arn).2.count (CallEvent.describeGroup g) = 0 := by
  rw [List.count_eq_zero]
  intro hmem
  rcases get_permission_set_policies_events_mem env arn hmem with h | h | h <;> simp at h

theorem get_permission_set_policies_count_lgm (env : AWSEnv) (arn g : String) :
    (get_permission_set_policies env arn).2.count
      (CallEvent.listGroupMemberships g) = 0 := by
  rw [List.count_eq_zero]
  intro hmem
  rcases get_permission_set_policies_events_mem env arn hmem with h | h | h <;> simp at h

theorem audit_step_counts (env : AWSEnv) (st : GroupsData × PSData) (a : Assignment)
    (g : String) :
    ((audit_step env st a).2.count (CallEvent.describeGroup g) =
      if isGroupAssign a = true ∧ a.PrincipalId = g ∧
          alistHasKey st.1 a.PrincipalId = false then 1 else 0) ∧
    ((audit_step env st a).2.count (CallEvent.listGroupMemberships g) =
      if isGroupAssign a = true ∧ a.PrincipalId = g ∧
          alistHasKey st.1 a.PrincipalId = false then 1 else 0) := by
  by_cases hg : a.PrincipalId = g
  · subst hg
    cases hG : isGroupAssign a <;> cases hK : alistHasKey st.1 a.PrincipalId <;>
      cases hK2 : alistHasKey st.2 a.PermissionSetArn <;>
      simp [audit_step, hG, hK, hK2, List.count_append, List.count_cons,
        get_group_details_events, get_permission_set_details_events,
        get_group_members_count_dg, get_group_members_count_lgm,
        get_permission_set_policies_count_dg, get_permission_set_policies_count_lgm]
  · have hg2 : ¬ g = a.PrincipalId := fun hc => hg hc.symm
    cases hG : isGroupAssign a <;> cases hK : alistHasKey st.1 a.PrincipalId <;>
      cases hK2 : alistHasKey st.2 a.PermissionSetArn <;>
      simp [audit_step, hG, hK, hK2, hg, hg2, List.count_append, List.count_cons,
        get_group_details_events, get_permission_set_details_events,
        get_group_members_count_dg, get_group_members_count_lgm,
        get_permission_set_policies_count_dg, get_permission_set_policies_count_lgm]

theorem audit_step_gd_hasKey (env : AWSEnv) (st : GroupsData × PSData) (a : Assignment)
    (g : String) :
    alistHasKey (audit_step env st a).1.1 g =
      (alistHasKey st.1 g || (isGroupAssign a && a.PrincipalId == g)) := by
  by_cases hpg : a.PrincipalId = g
  · subst hpg
    cases hG : isGroupAssign a
    · rw [audit_step_gd]
      simp [hG]
    · rw [Bool.eq_iff_iff, audit_step_gd]
      simp only [hG, if_true]
      rw [alistHasKey_iff, alistModify_keys]
      cases hK : alistHasKey st.1 a.PrincipalId
      · rw [groupInsert, hK]
        simp [hK]
      · rw [groupInsert, hK]
        simp [hK, (alistHasKey_iff st.1 a.PrincipalId).mp hK]
  · have hg2 : ¬ g = a.PrincipalId := fun hc => hpg hc.symm
    cases hG : isGroupAssign a
    · rw [audit_step_gd]
      simp [hG]
    · rw [Bool.eq_iff_iff, audit_step_gd]
      simp only [hG, if_true]
      rw [alistHasKey_iff, alistModify_keys]
      cases hK : alistHasKey st.1 a.PrincipalId <;> rw [groupInsert, hK]
      · simp [hpg, hg2, alistHasKey_iff]
      · simp [hpg, hg2, alistHasKey_iff]

theorem process_counts (env : AWSEnv) (l : List Assignment) :
    ∀ (gd : GroupsData) (pd : PSData) (g : String),
      ((process_assignments env l gd pd).2.count (CallEvent.describeGroup g) =
        if alistHasKey gd g = true then 0
        else if g ∈ groupAssignIds l then 1 else 0) ∧
      ((process_assignments env l gd pd).2.count (CallEvent.listGroupMemberships g) =
        if alistHasKey gd g = true then 0
        else if g ∈ groupAssignIds l then 1 else 0) := by
  induction l with
  | nil =>
    intro gd pd g
    simp [process_assignments, groupAssignIds]
  | cons a rest ih =>
    intro gd pd g
    rw [process_assignments_cons]
    dsimp only
    have hstep := audit_step_counts env (gd, pd) a g
    have hkey := audit_step_gd_hasKey env (gd, pd) a g
    have hih := ih (audit_step env (gd, pd) a).1.1 (audit_step env (gd, pd) a).1.2 g
    by_cases hpg : a.PrincipalId = g
    · subst hpg
      refine ⟨?_, ?_⟩ <;>
        [rw [List.count_append, hstep.1, hih.1, hkey];
         rw [List.count_append, hstep.2, hih.2, hkey]] <;>
        cases hG : isGroupAssign a <;>
        cases hK : alistHasKey gd a.PrincipalId <;>
        simp [groupAssignIds_cons, hG, hK]
    · have hg2 : ¬ g = a.PrincipalId := fun hc => hpg hc.symm
      refine ⟨?_, ?_⟩ <;>
        [rw [List.count_append, hstep.1, hih.1, hkey];
         rw [List.count_append, hstep.2, hih.2, hkey]] <;>
        cases hG : isGroupAssign a <;>
        cases hK : alistHasKey gd g <;>
        simp [groupAssignIds_cons, hG, hK, hpg, hg2]

/-! ## Top-level shape of `audit_account` -/

theorem audit_account_report (env : AWSEnv) (account_id : String) :
    (audit_account env account_id).1 = Except.ok
      { metadata :=
          { generated_at := env.now, account_id := account_id,
            sso_instance_arn := env.instance_arn,
            identity_store_id := env.identity_store_id,
            auditor_version := "1.0.0",
            config := { aws_region := env.aws_region,
                        output_formats := env.output_formats } },
        sso_groups_summary :=
          ((audit_groups_data env account_id).map (fun kv => kv.2)).map
            (fun g => g.DisplayName),
        sso_permission_sets_summary :=
          ((audit_ps_data env account_id).map (fun kv => kv.2)).map
            (fun ps => (alistGet ps.details (PyKey.s "Name")).getD (PyVal.str "Unknown")),
        sso_groups := (audit_groups_data env account_id).map (fun kv => kv.2),
        permission_sets := (audit_ps_data env account_id).map (fun kv => kv.2),
        summary :=
          { total_groups := (audit_groups_data env account_id).length,
            total_permission_sets := (audit_ps_data env account_id).length,
            total_assignments := (allAssignmentsV env account_id).length } } := rfl

theorem audit_account_events (env : AWSEnv) (account_id : String) :
    (audit_account env account_id).2 =
      (get_all_account_assignments env account_id).2 ++
        (process_assignments env (allAssignmentsV env account_id) [] []).2 := rfl

theorem get_all_events_counts (env : AWSEnv) (account_id g : String) :
    ((get_all_account_assignments env account_id).2.count
       (CallEvent.describeGroup g) = 0) ∧
    ((get_all_account_assignments env account_id).2.count
       (CallEvent.listGroupMemberships g) = 0) := by
  constructor <;> rw [List.count_eq_zero] <;> intro hmem <;>
    simp only [get_all_account_assignments, get_permission_sets_for_account,
      get_account_assignments_for_permission_set, List.singleton_append,
      List.mem_cons, List.mem_flatten, List.mem_map] at hmem <;>
    rcases hmem with h | ⟨l2, ⟨r, ⟨arn, _, hr⟩, h2⟩, hl⟩ <;>
    first
      | simp at h
      | (rw [← hr] at h2; rw [← h2] at hl; simp at hl)

/-- The final `groups_data` of a run, keyed exactly by the distinct GROUP
principal ids in first-appearance order. -/
theorem audit_groups_data_keys (env : AWSEnv) (account_id : String) :
    (audit_groups_data env account_id).map Prod.fst =
      dedupKeepFirst (groupAssignIds (allAssignmentsV env account_id)) := by
  rw [audit_groups_data, process_gd_keys]
  simp [foldIfNew_nil]

/-- The final `permission_sets_data` of a run, keyed exactly by the
distinct permission-set ARNs in first-appearance order. -/
theorem audit_ps_data_keys (env : AWSEnv) (account_id : String) :
    (audit_ps_data env account_id).map Prod.fst =
      dedupKeepFirst (arnsOf (allAssignmentsV env account_id)) := by
  rw [audit_ps_data, process_pd_keys]
  simp [foldIfNew_nil]

theorem audit_groups_data_get (env : AWSEnv) (account_id : String) (g : String) :
    alistGet (audit_groups_data env account_id) g =
      if g ∈ groupAssignIds (allAssignmentsV env account_id) then
        some (freshGroupRecord env (allAssignmentsV env account_id) g)
      else Option.none := by
  rw [audit_groups_data, process_gd_get]
  simp [alistGet]

theorem audit_ps_data_get (env : AWSEnv) (account_id : String) (p : String) :
    alistGet (audit_ps_data env account_id) p =
      if p ∈ arnsOf (allAssignmentsV env account_id) then
        some (freshPSRecord env (allAssignmentsV env account_id) p)
      else Option.none := by
  rw [audit_ps_data, process_pd_get]
  simp [alistGet, freshPSRecord, foldIfNew_nil]

theorem audit_events_counts (env : AWSEnv) (account_id g : String) :
    ((audit_account env account_id).2.count (CallEvent.describeGroup g) =
      if g ∈ groupAssignIds (allAssignmentsV env account_id) then 1 else 0) ∧
    ((audit_account env account_id).2.count (CallEvent.listGroupMemberships g) =
      if g ∈ groupAssignIds (allAssignmentsV env account_id) then 1 else 0) := by
  constructor <;>
    rw [audit_account_events, List.count_append] <;>
    [rw [(get_all_events_counts env account_id g).1,
        (process_counts env (allAssignmentsV env account_id) [] [] g).1];
     rw [(get_all_events_counts env account_id g).2,
        (process_counts env (allAssignmentsV env account_id) [] [] g).2]] <;>
    simp [alistHasKey, alistGet]

theorem freshGroupRecord_mem (env : AWSEnv) (account_id g : String)
    (hg : g ∈ groupAssignIds (allAssignmentsV env account_id)) :
    freshGroupRecord env (allAssignmentsV env account_id) g ∈
      (audit_groups_data env account_id).map (fun kv => kv.2) := by
  have hget := audit_groups_data_get env account_id g
  rw [if_pos hg] at hget
  exact List.mem_map_of_mem _ (alistGet_mem hget)

theorem run_report_fields (env : AWSEnv) (account_id : String) (rep : Report)
    (evs : List CallEvent)
    (h : audit_account env account_id = (Except.ok rep, evs)) :
    rep.sso_groups = (audit_groups_data env account_id).map (fun kv => kv.2) ∧
    rep.permission_sets = (audit_ps_data env account_id).map (fun kv => kv.2) ∧
    rep.summary.total_groups = (audit_groups_data env account_id).length ∧
    rep.summary.total_permission_sets = (audit_ps_data env account_id).length ∧
    rep.summary.total_assignments = (allAssignmentsV env account_id).length ∧
    evs = (audit_account env account_id).2 := by
  have h1 := congrArg Prod.fst h
  rw [audit_account_report] at h1
  have h2 := Except.ok.inj h1
  refine ⟨?_, ?_, ?_, ?_, ?_, (congrArg Prod.snd h).symm⟩ <;> rw [← h2]

theorem allAssignmentsV_of_list_error (env : AWSEnv) (account_id e : String)
    (h : env.list_permission_sets_provisioned_to_account account_id =
      Except.error e) :
    allAssignmentsV env account_id = [] ∧
    (get_all_account_assignments env account_id).2 =
      [CallEvent.listPermissionSetsProvisioned account_id] := by
  constructor <;>
    simp [allAssignmentsV, get_all_account_assignments,
      get_permission_sets_for_account, h]

theorem allAssignmentsV_of_zero_provisioned (env : AWSEnv) (account_id : String)
    (pages : List (List String))
    (h : env.list_permission_sets_provisioned_to_account account_id =
      Except.ok pages)
    (hempty : pages.flatten = []) :
    allAssignmentsV env account_id = [] := by
  simp [allAssignmentsV, get_all_account_assignments,
    get_permission_sets_for_account, h, hempty]

theorem audit_account_empty (env : AWSEnv) (account_id : String)
    (h : allAssignmentsV env account_id = []) :
    audit_account env account_id =
      (Except.ok (emptyReport env account_id),
       (get_all_account_assignments env account_id).2) := by
  have h1 : audit_groups_data env account_id = [] := by
    rw [audit_groups_data, h]
    rfl
  have h2 : audit_ps_data env account_id = [] := by
    rw [audit_ps_data, h]
    rfl
  have h3 : (process_assignments env (allAssignmentsV env account_id) [] []).2 = [] := by
    rw [h]
    rfl
  have hfst : (audit_account env account_id).1 =
      Except.ok (emptyReport env account_id) := by
    rw [audit_account_report, h1, h2, h]
    rfl
  have hsnd : (audit_account env account_id).2 =
      (get_all_account_assignments env account_id).2 := by
    rw [audit_account_events, h3, List.append_nil]
  rw [← hfst, ← hsnd]

/-! ## Concrete environments used by the claim witnesses -/

/-- A provider on which every call raises (`list_permission_sets...` with
the message of the repository test `test_get_permission_sets_for_account_failure`). -/
def envC1 : AWSEnv :=
  { instance_arn := "arn:aws:sso:::instance/ssoins-1", identity_store_id := "d-1",
    aws_region := "us-east-1", output_formats := ["json"],
    now := "2024-01-01T00:00:00",
    list_permission_sets_provisioned_to_account := fun _ => Except.error "AWS API Error",
    list_account_assignments := fun _ _ => Except.error "AWS API Error",
    describe_group := fun _ => Except.error "AccessDenied",
    list_group_memberships := fun _ => Except.error "AccessDenied",
    describe_user := fun _ => Except.error "AccessDenied",
    describe_permission_set := fun _ => Except.error "AccessDenied",
    list_managed_policies := fun _ => Except.error "AccessDenied",
    list_customer_managed_policy_refs := fun _ => Except.error "AccessDenied",
    get_inline_policy := fun _ => InlineResult.error "AccessDenied",
    json_loads := fun _ => Except.error "invalid" }

/-- One permission set `ps-1`, and for it three assignments: the pair
(`g-1`, `ps-1`) twice (a duplicate across pages is possible at the
provider) and one USER assignment; all detail lookups raise. -/
def envW : AWSEnv :=
  { envC1 with
    list_permission_sets_provisioned_to_account := fun _ => Except.ok [["ps-1"]],
    list_account_assignments := fun _ arn => Except.ok
      [[{ PrincipalType := "GROUP", PrincipalId := "g-1", PermissionSetArn := arn },
        { PrincipalType := "GROUP", PrincipalId := "g-1", PermissionSetArn := arn },
        { PrincipalType := "USER", PrincipalId := "u-1", PermissionSetArn := arn }]] }

/-- Like `envW`, but the membership enumeration succeeds with one member
`u-7` (whose own detail lookup still fails). -/
def envC8 : AWSEnv :=
  { envW with
    list_group_memberships := fun _ => Except.ok [[{ UserId := "u-7" }]] }

/-- A provider whose provisioned-permission-set listing succeeds with zero
permission sets. -/
def envC7 : AWSEnv :=
  { envC1 with
    list_permission_sets_provisioned_to_account := fun _ => Except.ok [] }

/-! ## C1 -/

/-- C1 (counterexample): on a provider whose provisioned-permission-set
listing raises, `audit_account` does not fail with an `AWSSSOAuditorError`:
`get_permission_sets_for_account` catches the exception and returns `[]`
(behaviour pinned by the repository test
`test_get_permission_sets_for_account_failure`), so the audit returns a
successful, empty report. -/
theorem C1_counterexample :
    envC1.list_permission_sets_provisioned_to_account "123456789012" =
      Except.error "AWS API Error" ∧
    (audit_account envC1 "123456789012").1 =
      Except.ok (emptyReport envC1 "123456789012") := by
  constructor
  · rfl
  · have h := allAssignmentsV_of_list_error envC1 "123456789012" "AWS API Error" rfl
    rw [audit_account_empty envC1 "123456789012" h.1]

/-- C1 (amended): if the paginated
`list_permission_sets_provisioned_to_account` call raises, the exception is
caught inside `get_permission_sets_for_account`, which returns the empty
list; consequently `audit_account` does not raise, and returns a report
with empty collections and all summary counts zero (after exactly one
provider call). -/
theorem C1_list_failure_empty_report (env : AWSEnv) (account_id e : String)
    (h : env.list_permission_sets_provisioned_to_account account_id =
      Except.error e) :
    get_permission_sets_for_account env account_id =
      ([], [CallEvent.listPermissionSetsProvisioned account_id]) ∧
    audit_account env account_id =
      (Except.ok (emptyReport env account_id),
       [CallEvent.listPermissionSetsProvisioned account_id]) := by
  have hv := allAssignmentsV_of_list_error env account_id e h
  constructor
  · simp [get_permission_sets_for_account, h]
  · rw [audit_account_empty env account_id hv.1, hv.2]

/-- Witness for C1: the amended behaviour at the concrete failing provider. -/
theorem C1_list_failure_empty_report_witness :
    envC1.list_permission_sets_provisioned_to_account "123456789012" =
      Except.error "AWS API Error" ∧
    audit_account envC1 "123456789012" =
      (Except.ok (emptyReport envC1 "123456789012"),
       [CallEvent.listPermissionSetsProvisioned "123456789012"]) :=
  ⟨rfl,
   (C1_list_failure_empty_report envC1 "123456789012" "AWS API Error" rfl).2⟩

/-! ## C7 -/

/-- C7: for every account whose provisioned-permission-set listing returns
an empty list, `audit_account` returns the empty report: both collections,
both flat name lists empty, and all three summary counts zero. -/
theorem C7_zero_provisioned (env : AWSEnv) (account_id : String)
    (pages : List (List String))
    (h : env.list_permission_sets_provisioned_to_account account_id =
      Except.ok pages)
    (hflat : pages.flatten = []) :
    (audit_account env account_id).1 = Except.ok (emptyReport env account_id) ∧
    (emptyReport env account_id).summary.total_groups = 0 ∧
    (emptyReport env account_id).summary.total_permission_sets = 0 ∧
    (emptyReport env account_id).summary.total_assignments = 0 ∧
    (emptyReport env account_id).sso_groups = [] ∧
    (emptyReport env account_id).permission_sets = [] ∧
    (emptyReport env account_id).sso_groups_summary = [] ∧
    (emptyReport env account_id).sso_permission_sets_summary = [] := by
  have ha := allAssignmentsV_of_zero_provisioned env account_id pages h hflat
  refine ⟨?_, rfl, rfl, rfl, rfl, rfl, rfl, rfl⟩
  rw [audit_account_empty env account_id ha]

/-- Witness for C7 at a concrete provider with zero provisioned sets. -/
theorem C7_zero_provisioned_witness :
    envC7.list_permission_sets_provisioned_to_account "123456789012" =
      Except.ok [] ∧
    (List.flatten ([] : List (List String)) = []) ∧
    (audit_account envC7 "123456789012").1 =
      Except.ok (emptyReport envC7 "123456789012") :=
  ⟨rfl, rfl, (C7_zero_provisioned envC7 "123456789012" [] rfl rfl).1⟩

/-! ## C2 -/

/-- C2: in every emitted report, `summary.total_assignments` is the length
of the raw assignment sequence (USER-type assignments and duplicates
included), `summary.total_groups` is the number of distinct group
identifiers among GROUP-type assignments, and
`summary.total_permission_sets` is the number of distinct permission-set
identifiers appearing anywhere in the sequence. -/
theorem C2_summary_counts (env : AWSEnv) (account_id : String) (rep : Report)
    (evs : List CallEvent)
    (h : audit_account env account_id = (Except.ok rep, evs)) :
    rep.summary.total_assignments = (allAssignmentsV env account_id).length ∧
    rep.summary.total_groups =
      (groupAssignIds (allAssignmentsV env account_id)).toFinset.card ∧
    rep.summary.total_permission_sets =
      (arnsOf (allAssignmentsV env account_id)).toFinset.card := by
  obtain ⟨-, -, hg, hp, ha, -⟩ := run_report_fields env account_id rep evs h
  refine ⟨ha, ?_, ?_⟩
  · rw [hg]
    have hk := congrArg List.length (audit_groups_data_keys env account_id)
    rw [List.length_map] at hk
    rw [hk, dedupKeepFirst_length]
  · rw [hp]
    have hk := congrArg List.length (audit_ps_data_keys env account_id)
    rw [List.length_map] at hk
    rw [hk, dedupKeepFirst_length]

/-- The policies placeholder produced on `envW`, where every policy call
raises. -/
def noPoliciesW : Policies :=
  { managed_policies := [], customer_managed_policies := [],
    inline_policy := PyVal.none }

/-- The report `audit_account` produces on `envW`. -/
def repW : Report :=
  { metadata :=
      { generated_at := "2024-01-01T00:00:00", account_id := "123456789012",
        sso_instance_arn := "arn:aws:sso:::instance/ssoins-1",
        identity_store_id := "d-1", auditor_version := "1.0.0",
        config := { aws_region := "us-east-1", output_formats := ["json"] } },
    sso_groups_summary := [PyVal.str "Unknown"],
    sso_permission_sets_summary := [PyVal.str "Unknown"],
    sso_groups :=
      [{ GroupId := PyVal.str "g-1", DisplayName := PyVal.str "Unknown",
         Description := PyVal.str "", Members := [],
         PermissionSets :=
           [{ details := [], Policies := noPoliciesW },
            { details := [], Policies := noPoliciesW }] }],
    permission_sets :=
      [{ details := [], Policies := noPoliciesW, AssignedGroups := ["g-1"] }],
    summary :=
      { total_groups := 1, total_permission_sets := 1, total_assignments := 3 } }

/-- The call trace `audit_account` produces on `envW`. -/
def evsW : List CallEvent :=
  [CallEvent.listPermissionSetsProvisioned "123456789012",
   CallEvent.listAccountAssignments "123456789012" "ps-1",
   CallEvent.describeGroup "g-1",
   CallEvent.listGroupMemberships "g-1",
   CallEvent.describePermissionSet "ps-1",
   CallEvent.listManagedPolicies "ps-1",
   CallEvent.describePermissionSet "ps-1",
   CallEvent.listManagedPolicies "ps-1",
   CallEvent.describePermissionSet "ps-1",
   CallEvent.listManagedPolicies "ps-1"]

/-- Witness for C2: on `envW` the three retrieved assignments (with a
duplicated GROUP pair and one USER assignment) yield
`total_assignments = 3`, one distinct group and one distinct
permission set. -/
theorem C2_summary_counts_witness :
    audit_account envW "123456789012" = (Except.ok repW, evsW) ∧
    (repW.summary.total_assignments = (allAssignmentsV envW "123456789012").length ∧
     repW.summary.total_groups =
       (groupAssignIds (allAssignmentsV envW "123456789012")).toFinset.card ∧
     repW.summary.total_permission_sets =
       (arnsOf (allAssignmentsV envW "123456789012")).toFinset.card) :=
  ⟨rfl, C2_summary_counts envW "123456789012" repW evsW rfl⟩

/-! ## C3 -/

/-- C3: in every report of `audit_account`, the group collection has at
most one entry per group identifier (its keys are `Nodup`), the
permission-set collection has at most one entry per ARN, the report lists
are exactly the values of those keyed collections, and every permission
set's `AssignedGroups` is duplicate-free and lists the group identifiers
in first-appearance order of the assignment sequence
(`dedupKeepFirst` keeps the first occurrence of each identifier, in
order). -/
theorem C3_dedup_invariants (env : AWSEnv) (account_id : String) (rep : Report)
    (evs : List CallEvent)
    (h : audit_account env account_id = (Except.ok rep, evs)) :
    ((audit_groups_data env account_id).map Prod.fst).Nodup ∧
    ((audit_ps_data env account_id).map Prod.fst).Nodup ∧
    rep.sso_groups = (audit_groups_data env account_id).map (fun kv => kv.2) ∧
    rep.permission_sets = (audit_ps_data env account_id).map (fun kv => kv.2) ∧
    ∀ p psrec, (p, psrec) ∈ audit_ps_data env account_id →
      psrec.AssignedGroups.Nodup ∧
      psrec.AssignedGroups =
        dedupKeepFirst (groupIdsForArn (allAssignmentsV env account_id) p) := by
  obtain ⟨hsg, hps, -, -, -, -⟩ := run_report_fields env account_id rep evs h
  have hnp : ((audit_ps_data env account_id).map Prod.fst).Nodup := by
    rw [audit_ps_data_keys]
    exact dedupKeepFirst_nodup _
  refine ⟨?_, hnp, hsg, hps, ?_⟩
  · rw [audit_groups_data_keys]
    exact dedupKeepFirst_nodup _
  · intro p psrec hmem
    have hget := alistGet_of_mem_nodup hmem hnp
    rw [audit_ps_data_get] at hget
    by_cases hp : p ∈ arnsOf (allAssignmentsV env account_id)
    · rw [if_pos hp] at hget
      have heq := Option.some.inj hget
      rw [← heq]
      exact ⟨dedupKeepFirst_nodup _, rfl⟩
    · rw [if_neg hp] at hget
      exact absurd hget (by simp)

/-- Witness for C3 on `envW`: one group entry, one permission-set entry,
and `AssignedGroups = ["g-1"]` despite two GROUP assignments. -/
theorem C3_dedup_invariants_witness :
    audit_account envW "123456789012" = (Except.ok repW, evsW) ∧
    (((audit_groups_data envW "123456789012").map Prod.fst).Nodup ∧
     ((audit_ps_data envW "123456789012").map Prod.fst).Nodup ∧
     repW.sso_groups = (audit_groups_data envW "123456789012").map (fun kv => kv.2) ∧
     repW.permission_sets = (audit_ps_data envW "123456789012").map (fun kv => kv.2) ∧
     ∀ p psrec, (p, psrec) ∈ audit_ps_data envW "123456789012" →
       psrec.AssignedGroups.Nodup ∧
       psrec.AssignedGroups =
         dedupKeepFirst (groupIdsForArn (allAssignmentsV envW "123456789012") p)) :=
  ⟨rfl, C3_dedup_invariants envW "123456789012" repW evsW rfl⟩

/-! ## C4 -/

/-- C4: if the pair (`g`, `p`) occurs `n` times among GROUP-type
assignments, then the report record of group `g` carries one
permission-set-detail entry per GROUP assignment naming `g` — in
particular `n` identical entries for `p`, with no deduplication
(`List.replicate n` embeds as a sublist) — while the group's details and
members are fetched exactly once (one `describe_group` and one
`list_group_memberships` call in the whole trace). -/
theorem C4_duplicate_pair (env : AWSEnv) (account_id g p : String) (n : Nat)
    (rep : Report) (evs : List CallEvent)
    (h : audit_account env account_id = (Except.ok rep, evs))
    (hg : g ∈ groupAssignIds (allAssignmentsV env account_id))
    (hn : ((allAssignmentsV env account_id).filter
        (fun a => isGroupAssign a && a.PrincipalId == g && a.PermissionSetArn == p)).length
      = n) :
    freshGroupRecord env (allAssignmentsV env account_id) g ∈ rep.sso_groups ∧
    (freshGroupRecord env (allAssignmentsV env account_id) g).PermissionSets =
      ((allAssignmentsV env account_id).filter
        (fun a => isGroupAssign a && a.PrincipalId == g)).map
        (fun a => psFullV env a.PermissionSetArn) ∧
    List.Sublist (List.replicate n (psFullV env p))
      (freshGroupRecord env (allAssignmentsV env account_id) g).PermissionSets ∧
    evs.count (CallEvent.describeGroup g) = 1 ∧
    evs.count (CallEvent.listGroupMemberships g) = 1 := by
  obtain ⟨hsg, -, -, -, -, hevs⟩ := run_report_fields env account_id rep evs h
  refine ⟨?_, rfl, ?_, ?_, ?_⟩
  · rw [hsg]
    exact freshGroupRecord_mem env account_id g hg
  · have hff : (allAssignmentsV env account_id).filter
        (fun a => isGroupAssign a && a.PrincipalId == g && a.PermissionSetArn == p) =
        ((allAssignmentsV env account_id).filter
          (fun a => isGroupAssign a && a.PrincipalId == g)).filter
          (fun a => a.PermissionSetArn == p) := by
      rw [List.filter_filter]
      refine List.filter_congr fun a _ => ?_
      cases h1 : isGroupAssign a <;> cases h2 : (a.PrincipalId == g) <;>
        cases h3 : (a.PermissionSetArn == p) <;> simp [h1, h2, h3]
    have hrep : (((allAssignmentsV env account_id).filter
          (fun a => isGroupAssign a && a.PrincipalId == g)).filter
          (fun a => a.PermissionSetArn == p)).map
          (fun a => psFullV env a.PermissionSetArn) =
        List.replicate n (psFullV env p) := by
      rw [List.eq_replicate_iff]
      constructor
      · rw [List.length_map, ← hff, hn]
      · intro b hb
        simp only [List.mem_map, List.mem_filter] at hb
        obtain ⟨a, ⟨_, ha⟩, hba⟩ := hb
        rw [← hba]
        have harn : a.PermissionSetArn = p := by simpa using ha
        rw [harn]
    have hsub : List.Sublist ((((allAssignmentsV env account_id).filter
          (fun a => isGroupAssign a && a.PrincipalId == g)).filter
          (fun a => a.PermissionSetArn == p)).map
          (fun a => psFullV env a.PermissionSetArn))
        (((allAssignmentsV env account_id).filter
          (fun a => isGroupAssign a && a.PrincipalId == g)).map
          (fun a => psFullV env a.PermissionSetArn)) :=
      (List.filter_sublist _).map _
    rw [← hrep]
    exact hsub
  · rw [hevs, (audit_events_counts env account_id g).1, if_pos hg]
  · rw [hevs, (audit_events_counts env account_id g).2, if_pos hg]

/-- Witness for C4 on `envW`: the pair (`g-1`, `ps-1`) occurs twice, the
group record carries two identical permission-set entries, and `g-1` is
fetched exactly once. -/
theorem C4_duplicate_pair_witness :
    audit_account envW "123456789012" = (Except.ok repW, evsW) ∧
    "g-1" ∈ groupAssignIds (allAssignmentsV envW "123456789012") ∧
    ((allAssignmentsV envW "123456789012").filter
        (fun a => isGroupAssign a && a.PrincipalId == "g-1" &&
          a.PermissionSetArn == "ps-1")).length = 2 ∧
    (freshGroupRecord envW (allAssignmentsV envW "123456789012") "g-1"
        ∈ repW.sso_groups ∧
      (freshGroupRecord envW (allAssignmentsV envW "123456789012") "g-1").PermissionSets =
        ((allAssignmentsV envW "123456789012").filter
          (fun a => isGroupAssign a && a.PrincipalId == "g-1")).map
          (fun a => psFullV envW a.PermissionSetArn) ∧
      List.Sublist (List.replicate 2 (psFullV envW "ps-1"))
        (freshGroupRecord envW (allAssignmentsV envW "123456789012") "g-1").PermissionSets ∧
      evsW.count (CallEvent.describeGroup "g-1") = 1 ∧
      evsW.count (CallEvent.listGroupMemberships "g-1") = 1) :=
  ⟨rfl, by decide, by decide,
   C4_duplicate_pair envW "123456789012" "g-1" "ps-1" 2 repW evsW rfl
     (by decide) (by decide)⟩

/-! ## C8 -/

/-- C8: when the group-detail lookup for `g` fails but `g` is assigned,
the audit does not abort: the report still contains a record for `g` with
the identifier preserved, the fixed placeholder `"Unknown"` display name,
empty description, and whatever the independent membership enumeration
(`get_group_members`) could still resolve as its `Members`. -/
theorem C8_group_detail_failure (env : AWSEnv) (account_id g e : String)
    (rep : Report) (evs : List CallEvent)
    (hfail : env.describe_group g = Except.error e)
    (h : audit_account env account_id = (Except.ok rep, evs))
    (hg : g ∈ groupAssignIds (allAssignmentsV env account_id)) :
    ({ GroupId := PyVal.str g, DisplayName := PyVal.str "Unknown",
       Description := PyVal.str "",
       Members := (get_group_members env g).1,
       PermissionSets := groupPSEntries env (allAssignmentsV env account_id) g }
      : GroupRecord) ∈ rep.sso_groups := by
  obtain ⟨hsg, -, -, -, -, -⟩ := run_report_fields env account_id rep evs h
  have hfresh : freshGroupRecord env (allAssignmentsV env account_id) g =
      { GroupId := PyVal.str g, DisplayName := PyVal.str "Unknown",
        Description := PyVal.str "", Members := (get_group_members env g).1,
        PermissionSets := groupPSEntries env (allAssignmentsV env account_id) g } := by
    simp [freshGroupRecord, get_group_details, hfail, unknownGroup]
  rw [hsg, ← hfresh]
  exact freshGroupRecord_mem env account_id g hg

/-- The report `audit_account` produces on `envC8`. -/
def repC8 : Report :=
  { metadata :=
      { generated_at := "2024-01-01T00:00:00", account_id := "123456789012",
        sso_instance_arn := "arn:aws:sso:::instance/ssoins-1",
        identity_store_id := "d-1", auditor_version := "1.0.0",
        config := { aws_region := "us-east-1", output_formats := ["json"] } },
    sso_groups_summary := [PyVal.str "Unknown"],
    sso_permission_sets_summary := [PyVal.str "Unknown"],
    sso_groups :=
      [{ GroupId := PyVal.str "g-1", DisplayName := PyVal.str "Unknown",
         Description := PyVal.str "",
         Members :=
           [{ UserId := PyVal.str "u-7", UserName := PyVal.str "Unknown",
              DisplayName := PyVal.str "Unknown", Email := PyVal.str "" }],
         PermissionSets :=
           [{ details := [], Policies := noPoliciesW },
            { details := [], Policies := noPoliciesW }] }],
    permission_sets :=
      [{ details := [], Policies := noPoliciesW, AssignedGroups := ["g-1"] }],
    summary :=
      { total_groups := 1, total_permission_sets := 1, total_assignments := 3 } }

/-- The call trace `audit_account` produces on `envC8`. -/
def evsC8 : List CallEvent :=
  [CallEvent.listPermissionSetsProvisioned "123456789012",
   CallEvent.listAccountAssignments "123456789012" "ps-1",
   CallEvent.describeGroup "g-1",
   CallEvent.listGroupMemberships "g-1",
   CallEvent.describeUser "u-7",
   CallEvent.describePermissionSet "ps-1",
   CallEvent.listManagedPolicies "ps-1",
   CallEvent.describePermissionSet "ps-1",
   CallEvent.listManagedPolicies "ps-1",
   CallEvent.describePermissionSet "ps-1",
   CallEvent.listManagedPolicies "ps-1"]

/-- Witness for C8 on `envC8`: `describe_group` fails, yet the report
contains the `g-1` placeholder record whose member list carries the one
membership that could still be resolved. -/
theorem C8_group_detail_failure_witness :
    envC8.describe_group "g-1" = Except.error "AccessDenied" ∧
    audit_account envC8 "123456789012" = (Except.ok repC8, evsC8) ∧
    "g-1" ∈ groupAssignIds (allAssignmentsV envC8 "123456789012") ∧
    ({ GroupId := PyVal.str "g-1", DisplayName := PyVal.str "Unknown",
       Description := PyVal.str "",
       Members := (get_group_members envC8 "g-1").1,
       PermissionSets :=
         groupPSEntries envC8 (allAssignmentsV envC8 "123456789012") "g-1" }
      : GroupRecord) ∈ repC8.sso_groups :=
  ⟨rfl, rfl, by decide,
   C8_group_detail_failure envC8 "123456789012" "g-1" "AccessDenied" repC8 evsC8
     rfl rfl (by decide)⟩

/-! ## C5 -/

/-- C5 (code defect): whenever the `describe_user` response carries its
`Emails` as a list — the shape the provider actually returns — the `Email`
field of `get_user_details` is always the empty string, even when a
primary email is present: `safe_get_nested(response, ["Emails", 0, "Value"], "")`
can only descend through dicts, so the integer index `0` into the list
immediately yields the default. The documented intent (primary email of
the first `Emails` entry, falling back to the empty string) is
unreachable. -/
theorem C5_email_always_empty (env : AWSEnv) (user_id : String)
    (entries : PyDict) (items : List PyVal)
    (hresp : env.describe_user user_id = Except.ok (PyVal.dict entries))
    (hemails : alistGet entries (PyKey.s "Emails") = some (PyVal.list items)) :
    (get_user_details env user_id).1.Email = PyVal.str "" := by
  unfold get_user_details
  rw [hresp]
  cases h1 : alistGet entries (PyKey.s "UserId") <;>
    cases h2 : alistGet entries (PyKey.s "UserName") <;>
    simp [unknownUser, safe_get_nested, hemails, h1, h2]

/-- The `describe_user` response used by the C5 witness: a well-formed
user with a primary email `alice@example.com`. -/
def userRespC5 : PyDict :=
  [(PyKey.s "UserId", PyVal.str "u-1"),
   (PyKey.s "UserName", PyVal.str "alice"),
   (PyKey.s "DisplayName", PyVal.str "Alice Example"),
   (PyKey.s "Emails",
    PyVal.list [PyVal.dict [(PyKey.s "Value", PyVal.str "alice@example.com"),
                            (PyKey.s "Primary", PyVal.bool true)]])]

/-- A provider whose `describe_user` succeeds with `userRespC5`. -/
def envC5 : AWSEnv :=
  { envC1 with describe_user := fun _ => Except.ok (PyVal.dict userRespC5) }

/-- Witness for C5: the failing input. The user has the primary email
`alice@example.com` in the first `Emails` entry, yet the returned `Email`
field is the empty string. -/
theorem C5_email_always_empty_witness :
    envC5.describe_user "u-1" = Except.ok (PyVal.dict userRespC5) ∧
    alistGet userRespC5 (PyKey.s "Emails") =
      some (PyVal.list [PyVal.dict
        [(PyKey.s "Value", PyVal.str "alice@example.com"),
         (PyKey.s "Primary", PyVal.bool true)]]) ∧
    (get_user_details envC5 "u-1").1.Email = PyVal.str "" :=
  ⟨rfl, rfl,
   C5_email_always_empty envC5 "u-1" userRespC5
     [PyVal.dict [(PyKey.s "Value", PyVal.str "alice@example.com"),
                  (PyKey.s "Primary", PyVal.bool true)]] rfl rfl⟩

/-! ## C6 -/

/-- A provider session whose client construction succeeds and whose
`list_instances` returns an empty instance list. -/
def mgrEnvC6 : MgrEnv :=
  { create_client := fun _ => Except.ok (),
    list_instances := Except.ok [] }

/-- C6 (counterexample): with an empty instance list, the failure that
reaches the caller of the construction is NOT the `SSOInstanceNotFoundError`:
`_discover_sso_instance` does raise it, but `_initialize_sso_clients`
catches it and re-wraps it, so the surfaced exception is the
client-initialization error `AWSClientError` (with the no-instance error
as its cause). -/
theorem C6_counterexample :
    init_sso_clients mgrEnvC6 =
      Except.error (PyExc.chained ExcKind.awsClientError
        "Error initializing SSO clients: No SSO instances found in this AWS account"
        (PyExc.root ExcKind.ssoInstanceNotFound
          "No SSO instances found in this AWS account")) ∧
    ExcKind.awsClientError ≠ ExcKind.ssoInstanceNotFound := by
  constructor
  · rfl
  · decide

/-- C6 (amended): on an empty instance list, `_discover_sso_instance`
raises `SSOInstanceNotFoundError` (re-raised unchanged by its own handler
thanks to the message check), but `_initialize_sso_clients` wraps it into
`AWSClientError` whose cause is the no-instance error; any other
provider-side failure of the discovery (whose message does not contain
"No SSO instances found") is wrapped into
`SSOInstanceNotFoundError("Failed to get SSO instance: ...")`. -/
theorem C6_empty_instances_wrapped (env : MgrEnv)
    (hc : ∀ svc, env.create_client svc = Except.ok ()) :
    (env.list_instances = Except.ok [] →
      discover_sso_instance env =
        Except.error (PyExc.root ExcKind.ssoInstanceNotFound
          "No SSO instances found in this AWS account") ∧
      init_sso_clients env =
        Except.error (PyExc.chained ExcKind.awsClientError
          "Error initializing SSO clients: No SSO instances found in this AWS account"
          (PyExc.root ExcKind.ssoInstanceNotFound
            "No SSO instances found in this AWS account"))) ∧
    (∀ e, env.list_instances = Except.error e →
      str_contains e "No SSO instances found" = false →
      discover_sso_instance env =
        Except.error (PyExc.root ExcKind.ssoInstanceNotFound
          ("Failed to get SSO instance: " ++ e))) := by
  constructor
  · intro hli
    have hsc : str_contains "No SSO instances found in this AWS account"
        "No SSO instances found" = true := by decide
    have hd : discover_sso_instance env =
        Except.error (PyExc.root ExcKind.ssoInstanceNotFound
          "No SSO instances found in this AWS account") := by
      unfold discover_sso_instance
      rw [hli]
      simp [PyExc.msg, hsc]
    refine ⟨hd, ?_⟩
    unfold init_sso_clients
    rw [hc "sso-admin", hc "identitystore", hc "organizations", hd]
    rfl
  · intro e hli hnc
    unfold discover_sso_instance
    rw [hli]
    simp [PyExc.msg, hnc]

/-- Witness for C6 at the concrete empty-instance provider. -/
theorem C6_empty_instances_wrapped_witness :
    mgrEnvC6.create_client "sso-admin" = Except.ok () ∧
    mgrEnvC6.list_instances = Except.ok [] ∧
    discover_sso_instance mgrEnvC6 =
      Except.error (PyExc.root ExcKind.ssoInstanceNotFound
        "No SSO instances found in this AWS account") ∧
    init_sso_clients mgrEnvC6 =
      Except.error (PyExc.chained ExcKind.awsClientError
        "Error initializing SSO clients: No SSO instances found in this AWS account"
        (PyExc.root ExcKind.ssoInstanceNotFound
          "No SSO instances found in this AWS account")) :=
  ⟨rfl, rfl,
   ((C6_empty_instances_wrapped mgrEnvC6 (fun _ => rfl)).1 rfl).1,
   ((C6_empty_instances_wrapped mgrEnvC6 (fun _ => rfl)).1 rfl).2⟩

/-! ## C9 -/

theorem readRef_writeRef_self (s : DictStore) (r : Nat) (d : PyDict)
    (h : r < s.heap.length) : readRef (writeRef s r d) r = d := by
  unfold readRef writeRef
  rw [List.getD_eq_getElem _ _ (by simpa [List.length_set] using h)]
  exact List.getElem_set_self _

theorem readRef_writeRef_ne (s : DictStore) (r : Nat) (d : PyDict) (q : Nat)
    (h : ¬ r = q) : readRef (writeRef s r d) q = readRef s q := by
  unfold readRef writeRef
  by_cases hq : q < s.heap.length
  · rw [List.getD_eq_getElem _ _ (by simpa [List.length_set] using hq),
      List.getD_eq_getElem _ _ hq]
    exact List.getElem_set_ne h _
  · rw [List.getD_eq_default _ _
      (by simpa [List.length_set] using Nat.le_of_not_lt hq),
      List.getD_eq_default _ _ (Nat.le_of_not_lt hq)]

theorem readRef_alloc_last (s : DictStore) (d : PyDict) :
    readRef ⟨s.heap ++ [d]⟩ s.heap.length = d := by
  unfold readRef
  rw [List.getD_append_right _ _ _ _ (Nat.le_refl _)]
  simp

theorem readRef_alloc_lt (s : DictStore) (d : PyDict) (r : Nat)
    (h : r < s.heap.length) : readRef ⟨s.heap ++ [d]⟩ r = readRef s r := by
  unfold readRef
  exact List.getD_append _ _ _ _ h

theorem dict_pop_ref_read_self (st : DictStore) (c : Nat) (k : PyKey)
    (h : c < st.heap.length) :
    readRef (dict_pop_ref st c k) c = dict_pop (readRef st c) k := by
  unfold dict_pop_ref
  exact readRef_writeRef_self st c _ h

theorem dict_pop_ref_read_ne (st : DictStore) (c : Nat) (k : PyKey) (q : Nat)
    (h : ¬ c = q) : readRef (dict_pop_ref st c k) q = readRef st q := by
  unfold dict_pop_ref
  exact readRef_writeRef_ne st c _ q h

theorem dict_pop_ref_length (st : DictStore) (c : Nat) (k : PyKey) :
    (dict_pop_ref st c k).heap.length = st.heap.length := by
  unfold dict_pop_ref writeRef
  exact List.length_set _ _ _

theorem triple_pop_eq_filter (d : PyDict) :
    dict_pop (dict_pop (dict_pop d (PyKey.s "ResponseMetadata"))
        (PyKey.s "NextToken")) (PyKey.s "IsTruncated") =
      d.filter (fun kv => decide (kv.1 ∉ metadata_keys.map PyKey.s)) := by
  unfold dict_pop
  rw [List.filter_filter, List.filter_filter]
  refine List.filter_congr fun kv _ => ?_
  by_cases h1 : kv.1 = PyKey.s "ResponseMetadata" <;>
    by_cases h2 : kv.1 = PyKey.s "NextToken" <;>
    by_cases h3 : kv.1 = PyKey.s "IsTruncated" <;>
    simp [metadata_keys, h1, h2, h3]

/-- C9: `clean_aws_response` allocates a fresh dict (a reference distinct
from the argument), pops exactly the keys `ResponseMetadata`, `NextToken`
and `IsTruncated` from the copy — leaving every other entry unchanged, in
order — and never mutates the caller's dict. -/
theorem C9_clean_response (s : DictStore) (r : Nat) (h : r < s.heap.length) :
    readRef (clean_aws_response s r).2 r = readRef s r ∧
    (clean_aws_response s r).1 ≠ r ∧
    readRef (clean_aws_response s r).2 (clean_aws_response s r).1 =
      (readRef s r).filter (fun kv => decide (kv.1 ∉ metadata_keys.map PyKey.s)) := by
  have hne : ¬ s.heap.length = r := fun hc => absurd (hc ▸ h) (Nat.lt_irrefl _)
  have hclean : clean_aws_response s r =
      (s.heap.length,
       dict_pop_ref (dict_pop_ref (dict_pop_ref ⟨s.heap ++ [readRef s r]⟩
           s.heap.length (PyKey.s "ResponseMetadata"))
         s.heap.length (PyKey.s "NextToken"))
       s.heap.length (PyKey.s "IsTruncated")) := rfl
  have hlen0 : (DictStore.mk (s.heap ++ [readRef s r])).heap.length =
      s.heap.length + 1 := by simp
  refine ⟨?_, ?_, ?_⟩
  · rw [hclean]
    dsimp only
    rw [dict_pop_ref_read_ne _ _ _ _ hne, dict_pop_ref_read_ne _ _ _ _ hne,
      dict_pop_ref_read_ne _ _ _ _ hne]
    exact readRef_alloc_lt s _ r h
  · rw [hclean]
    exact hne
  · rw [hclean]
    dsimp only
    rw [dict_pop_ref_read_self _ _ _ (by
      rw [dict_pop_ref_length, dict_pop_ref_length, hlen0]
      exact Nat.lt_succ_self _)]
    rw [dict_pop_ref_read_self _ _ _ (by
      rw [dict_pop_ref_length, hlen0]
      exact Nat.lt_succ_self _)]
    rw [dict_pop_ref_read_self _ _ _ (by
      rw [hlen0]
      exact Nat.lt_succ_self _)]
    rw [readRef_alloc_last]
    exact triple_pop_eq_filter _

/-- The heap used by the C9 witness: one dict holding a `Name` entry and a
`NextToken` metadata entry. -/
def storeC9 : DictStore :=
  ⟨[[(PyKey.s "Name", PyVal.str "AdminAccess"),
     (PyKey.s "NextToken", PyVal.str "tok")]]⟩

/-- Witness for C9 on a concrete heap: the input dict at reference 0 is
unchanged, the result is a fresh reference, and the copy keeps exactly the
non-metadata entries. -/
theorem C9_clean_response_witness :
    0 < storeC9.heap.length ∧
    (readRef (clean_aws_response storeC9 0).2 0 = readRef storeC9 0 ∧
     (clean_aws_response storeC9 0).1 ≠ 0 ∧
     readRef (clean_aws_response storeC9 0).2 (clean_aws_response storeC9 0).1 =
       (readRef storeC9 0).filter
         (fun kv => decide (kv.1 ∉ metadata_keys.map PyKey.s))) :=
  ⟨by decide, C9_clean_response storeC9 0 (by decide)⟩

/-! ## C10 -/

/-- C10 (counterexample): `validate_account_id` accepts the 13-character
string of twelve digits followed by a newline, because Python's `$`
matches just before a trailing newline; the claim requires `False` for any
string of length other than 12 or containing a non-digit. -/
theorem C10_counterexample :
    validate_account_id "123456789012\n" = true ∧
    "123456789012\n".data.length ≠ 12 ∧
    ¬ ("123456789012\n".data.all Char.isDigit = true) := by
  refine ⟨by decide, by decide, by decide⟩

/-- C10 (amended): `validate_account_id` returns `True` exactly for the
strings consisting of twelve decimal digits, optionally followed by one
trailing newline (the empty string and every other string yield `False`).
The digit class is modelled on 0-9, see `re_match_account_pattern`. -/
theorem C10_validate_iff (s : String) :
    validate_account_id s = true ↔
      ∃ ds : List Char, (∀ c ∈ ds, c.isDigit = true) ∧ ds.length = 12 ∧
        (s.data = ds ∨ s.data = ds ++ ['\n']) := by
  constructor
  · intro h
    by_cases hs : s = ""
    · rw [validate_account_id, if_pos hs] at h
      exact absurd h (by simp)
    · rw [validate_account_id, if_neg hs, re_match_account_pattern] at h
      simp only [Bool.or_eq_true, Bool.and_eq_true, beq_iff_eq,
        List.all_eq_true] at h
      rcases h with ⟨h12, hdig⟩ | ⟨⟨h13, hdig⟩, hlast⟩
      · exact ⟨s.data, fun c hc => hdig c hc, h12, Or.inl rfl⟩
      · refine ⟨s.data.take 12, fun c hc => hdig c hc, ?_, Or.inr ?_⟩
        · rw [List.length_take, h13]
          decide
        · have hdlen : (s.data.drop 12).length = 1 := by
            rw [List.length_drop, h13]
          obtain ⟨x, hx⟩ := List.length_eq_one.mp hdlen
          have hsd : s.data = s.data.take 12 ++ [x] := by
            conv_lhs => rw [← List.take_append_drop 12 s.data]
            rw [hx]
          rw [hsd] at hlast
          rw [List.getLast?_concat] at hlast
          have hxn : x = '\n' := Option.some.inj hlast
          rw [hxn] at hsd
          exact hsd
  · rintro ⟨ds, hdig, hlen, hcase | hcase⟩
    · have hs : ¬ s = "" := by
        intro hempty
        subst hempty
        rw [show ("" : String).data = [] from rfl] at hcase
        rw [← hcase] at hlen
        simp at hlen
      rw [validate_account_id, if_neg hs, re_match_account_pattern]
      have h1 : s.data.length = 12 := by rw [hcase, hlen]
      have h2 : s.data.all Char.isDigit = true := by
        rw [List.all_eq_true]
        intro c hc
        exact hdig c (hcase ▸ hc)
      simp [h1, h2]
    · have hs : ¬ s = "" := by
        intro hempty
        subst hempty
        rw [show ("" : String).data = [] from rfl] at hcase
        exact absurd hcase.symm (by simp)
      rw [validate_account_id, if_neg hs, re_match_account_pattern]
      have h1 : s.data.length = 13 := by
        rw [hcase]
        simp [hlen]
      have h2 : (s.data.take 12).all Char.isDigit = true := by
        rw [hcase, ← hlen, List.take_left, List.all_eq_true]
        exact fun c hc => hdig c hc
      have h3 : s.data.getLast? = some '\n' := by
        rw [hcase, List.getLast?_concat]
      simp [h1, h2, h3]
